/-
Verification of the oc-mirror / bundle imageset engine against its
natural-language specification.

Each section shallowly embeds one subsystem of the Go source:
  * publish-side metadata sequencing  (pkg/cli/mirror/publish.go,
    pkg/metadata/storage registry backend)
  * ICSP manifest generation          (icspGenerator.Run, getRegistryMapping)
  * the v2 batch worker               (Batch.Worker, isFailSafe)
  * catalog rebuild branch logic      (MirrorOptions.rebuildCatalogs)
  * archive extraction                (MirrorUnArchiver.Unarchive)
  * operator image pinning            (pinImages)
  * filter fingerprinting             (digestOfFilter, isAlreadyFiltered)
  * additional-image planning         (AdditionalOptions.GetAdditional)

Pure data transformations are embedded as Lean functions; external
effects (registry lookups, the image resolver, YAML serialization,
the MD5 hash) are abstracted as explicit function parameters, so that
each theorem quantifies over every possible behaviour of the external
collaborator.
-/
import Mathlib

set_option autoImplicit false

namespace OcBundle

/-! ## Section 1: publish-side metadata sequencing

Embeds `MirrorOptions.handleMetadata` (pkg/cli/mirror/publish.go,
lines 155-221), the typed errors `UuidError` / `SequenceError`
(lines 31-47), the registry storage backend's existence check
`registryBackend.exists` and `registryBackend.ReadMetadata`
(metadata/storage registry backend), and the control skeleton of
`MirrorOptions.Publish` (lines 58-151). -/

/-- A past mirror run record; only the sequence number participates in
the publish-side checks. -/
structure PastMirror where
  sequence : Nat
  deriving Repr, DecidableEq

/-- Per-workspace metadata: UUID, single-use flag and the latest past
mirror record (`incoming.PastMirror` / `curr.PastMirror` in the Go). -/
structure Metadata where
  uid : String
  singleUse : Bool
  pastMirror : PastMirror
  deriving Repr, DecidableEq

/-- Errors surfaced by the storage backend when reading metadata.
`metadataNotExist` embeds `storage.ErrMetadataNotExist`. -/
inductive StorageErr where
  | metadataNotExist
  | other (msg : String)
  deriving Repr, DecidableEq

/-- Result of `crane.Manifest` in `registryBackend.exists`: success, a
`*transport.Error` (any registry transport failure: missing manifest,
authentication failure, server error, ...), or some other error. -/
inductive ManifestResult where
  | ok
  | transportError (kind : String)
  | otherError (msg : String)
  deriving Repr, DecidableEq

/-- Embeds `registryBackend.exists`: a nil error passes, any
`*transport.Error` is collapsed to `ErrMetadataNotExist`, and every
other error is propagated unchanged. -/
def registryBackendExists (m : ManifestResult) : Option StorageErr :=
  match m with
  | .ok => none
  | .transportError _ => some .metadataNotExist
  | .otherError msg => some (.other msg)

/-- Embeds `registryBackend.ReadMetadata`: the existence check runs
first and its error is returned as-is; on success the image is
unpacked and read through the local backend (abstracted as the
metadata stored under the backend's image URL, `none` when unpacking
or local reading fails). -/
def registryBackendReadMetadata (m : ManifestResult) (stored : Option Metadata) :
    Except StorageErr Metadata :=
  match registryBackendExists m with
  | some e => .error e
  | none =>
    match stored with
    | some md => .ok md
    | none => .error (.other "error pulling image with metadata")

/-- Result of `MirrorOptions.handleMetadata`. The Go function returns
`(backend, incoming, curr, err)`; we keep the error discrimination the
claims are about. `UuidError` (publish.go lines 31-38) is declared in
the source but never produced by `handleMetadata`, so it appears here
as a constructor that no execution reaches. -/
inductive HandleMetaResult where
  | okSingleUse
  | okNewWorkspace
  | okExisting
  | sequenceError (wantSeq gotSeq : Nat)
  | uuidError (inUuid currUuid : String)
  | readError (msg : String)
  deriving Repr, DecidableEq

/-- Embeds the decision logic of `MirrorOptions.handleMetadata`
(publish.go lines 155-221): single-use metadata skips all checks;
otherwise the current metadata is read from the registry backend, a
read error other than `ErrMetadataNotExist` is propagated,
`ErrMetadataNotExist` starts a new workspace requiring incoming
sequence 1, and existing metadata requires incoming sequence =
current + 1 unless `o.SkipMetadataCheck` is set. -/
def handleMetadata (skipMetadataCheck : Bool) (incoming : Metadata)
    (readCurr : Except StorageErr Metadata) : HandleMetaResult :=
  if incoming.singleUse then .okSingleUse
  else
    match readCurr with
    | .error (.other msg) => .readError msg
    | .error .metadataNotExist =>
      if incoming.pastMirror.sequence ≠ 1 then
        .sequenceError 1 incoming.pastMirror.sequence
      else .okNewWorkspace
    | .ok curr =>
      if ¬ skipMetadataCheck then
        if incoming.pastMirror.sequence ≠ curr.pastMirror.sequence + 1 then
          .sequenceError (curr.pastMirror.sequence + 1) incoming.pastMirror.sequence
        else .okExisting
      else .okExisting

/-- Modelled from the spec: `MirrorOptions.newMetadataImage` is not in
the sources (only its call site in publish.go line 175 is); the spec
fixes the metadata image URL as `<registry>/oc-mirror:<uuid>`. -/
def newMetadataImage (registry uid : String) : String :=
  registry ++ "/oc-mirror:" ++ uid

/-- The registry's stored state, as a finite table from image URL to
the metadata stored under it. -/
def RegistryState := List (String × Metadata)

/-- Look up the metadata image at a URL. A URL that holds no image
makes `crane.Manifest` fail with a `*transport.Error` (manifest
unknown), which `registryBackend.exists` maps to
`ErrMetadataNotExist`. -/
def readCurrentFromRegistry (reg : RegistryState) (registry incomingUid : String) :
    Except StorageErr Metadata :=
  let url := newMetadataImage registry incomingUid
  match (List.lookup url reg : Option Metadata) with
  | some md => registryBackendReadMetadata .ok (some md)
  | none => registryBackendReadMetadata (.transportError "MANIFEST_UNKNOWN") none

/-- Outcome of the `Publish` control skeleton: whether the image
processing stage ran, whether metadata was written back, and the
metadata-check result. -/
structure PublishOutcome where
  metaResult : HandleMetaResult
  imagesMirrored : Bool
  metadataWritten : Bool
  deriving Repr, DecidableEq

/-- Embeds the control skeleton of `MirrorOptions.Publish` (publish.go
lines 58-151): `handleMetadata` runs before any image processing, its
error aborts the run, and on success the images are processed and the
metadata is written back unless it is single-use. -/
def publishRun (skipMetadataCheck : Bool) (incoming : Metadata)
    (readCurr : Except StorageErr Metadata) : PublishOutcome :=
  match handleMetadata skipMetadataCheck incoming readCurr with
  | .okSingleUse => ⟨.okSingleUse, true, false⟩
  | .okNewWorkspace => ⟨.okNewWorkspace, true, ¬ incoming.singleUse⟩
  | .okExisting => ⟨.okExisting, true, ¬ incoming.singleUse⟩
  | e => ⟨e, false, false⟩

/-! ## Section 2: ICSP manifest generation

Embeds `getRegistryMapping` and `icspGenerator.Run` from the
ICSP/CatalogSource generator (pkg/cli/mirror manifests file). YAML
serialization is external, so the byte size of a candidate ICSP is
abstracted as a function of the document name and its mirror list. -/

/-- A parsed docker image reference as used by the ICSP generator
(`reference.DockerImageReference`); `id` is the digest. -/
structure DockerImageReference where
  registry : String
  ns : String
  name : String
  tag : String
  id : String
  deriving Repr, DecidableEq

/-- Embeds `DockerImageReference.AsRepository().String()`: the
registry/namespace/name form with empty components omitted. -/
def asRepositoryString (r : DockerImageReference) : String :=
  (if r.registry = "" then "" else r.registry ++ "/") ++
    (if r.ns = "" then "" else r.ns ++ "/") ++ r.name

/-- Embeds `path.Join` on two non-empty components as used by
`getRegistryMapping` for the namespace scope. -/
def pathJoin2 (a b : String) : String :=
  if a = "" then b else if b = "" then a else a ++ "/" ++ b

/-- The (key, mirror) pair recorded for one mapping entry, matching
the `switch` in `getRegistryMapping`: one case body picks the form of
both the key and the value, so the source reference's namespace alone
selects it. Registry scope keeps both registries; namespace scope with
an empty source namespace falls through to the repository case, which
keeps both repository forms (whatever the destination namespace is);
the remaining namespace case joins registry and namespace on both
sides; a scope matching no case records nothing. -/
def scopeEntry (icspScope : String) (k v : DockerImageReference) :
    Option (String × String) :=
  if icspScope = "registry" then some (k.registry, v.registry)
  else if (icspScope = "namespace" ∧ k.ns = "") ∨ icspScope = "repository" then
    some (asRepositoryString k, asRepositoryString v)
  else if icspScope = "namespace" then
    some (pathJoin2 k.registry k.ns, pathJoin2 v.registry v.ns)
  else none

/-- Go-map style insertion into an association list: overwrite the
value when the key is present, append otherwise. -/
def mapInsert (m : List (String × String)) (k v : String) : List (String × String) :=
  if m.any (fun p => p.1 = k) then
    m.map (fun p => if p.1 = k then (k, v) else p)
  else m ++ [(k, v)]

/-- Embeds `getRegistryMapping`: entries whose destination has no
digest are skipped with a warning, and the rest are recorded under
their scope key (Go map semantics: one value per key); an entry whose
scope matches no switch case is not recorded. The input mapping is
taken in a fixed iteration order. -/
def getRegistryMapping (icspScope : String)
    (mapping : List (DockerImageReference × DockerImageReference)) :
    List (String × String) :=
  mapping.foldl
    (fun acc p =>
      if p.2.id = "" then acc
      else
        match scopeEntry icspScope p.1 p.2 with
        | some kv => mapInsert acc kv.1 kv.2
        | none => acc)
    []

/-- One emitted ImageContentSourcePolicy document: its object name and
its `RepositoryDigestMirrors` entries as (source, mirror) pairs. -/
structure ICSPDoc where
  name : String
  mirrors : List (String × String)
  deriving Repr, DecidableEq

/-- Helper: split a character list on a separator (the character-level
form of `strings.Split`). -/
def splitOnChar (sep : Char) : List Char → List (List Char)
  | [] => [[]]
  | c :: rest =>
    let r := splitOnChar sep rest
    if c = sep then [] :: r
    else
      match r with
      | [] => [[c]]
      | h :: t => (c :: h) :: t

/-- Helper: join character lists with a separator (the character-level
form of `strings.Join`). -/
def joinChar (sep : Char) : List (List Char) → List Char
  | [] => []
  | [x] => x
  | x :: xs => x ++ sep :: joinChar sep xs

/-- Helper: decimal digits of a natural number, fuel-guarded so the
kernel can evaluate it. -/
def natDigits (fuel n : Nat) : List Char :=
  match fuel with
  | 0 => []
  | f + 1 =>
    if n < 10 then [Char.ofNat (48 + n)]
    else natDigits f (n / 10) ++ [Char.ofNat (48 + n % 10)]

/-- Helper: decimal representation of a natural number (the
`strconv.Itoa` of the generator). -/
def natToStr (n : Nat) : String :=
  ⟨natDigits (n + 1) n⟩

/-- Embeds the per-document name: `strings.Join(strings.Split(icspName,
"/"), "-") + "-" + strconv.Itoa(icspCount)`. -/
def icspDocName (icspName : String) (count : Nat) : String :=
  (⟨joinChar (Char.ofNat 45) (splitOnChar (Char.ofNat 47) icspName.toList)⟩ : String) ++
    "-" ++ natToStr count

/-- Embeds the inner loop of `icspGenerator.Run` building one document:
each pending mirror is appended and the document re-serialized; on
overflow a document holding only that mirror is a hard error naming
its key, otherwise the last mirror is popped and the loop breaks,
leaving the unconsumed mirrors (the popped one first) pending.
`size name mirrors` abstracts `len(yaml.Marshal(icsp))`. -/
def fillDoc (size : String → List (String × String) → Nat) (name : String)
    (byteLimit : Nat) :
    List (String × String) → List (String × String) →
    Except String (List (String × String) × List (String × String))
  | [], acc => .ok (acc, [])
  | kv :: rest, acc =>
    let acc' := acc ++ [kv]
    if size name acc' > byteLimit then
      if acc'.length = 1 then .error kv.1
      else .ok (acc, kv :: rest)
    else fillDoc size name byteLimit rest acc'

/-- Embeds the outer loop of `icspGenerator.Run`: while mirrors remain
pending, open a fresh document named with the running count, fill it,
and keep it when non-empty. Termination holds because a round that
does not error always consumes at least the head of the pending
list. -/
def icspRunAux (size : String → List (String × String) → Nat)
    (icspName : String) (byteLimit : Nat) (count : Nat) :
    (pending : List (String × String)) → Except String (List ICSPDoc)
  | [] => .ok []
  | kv :: rest =>
    match hf : fillDoc size (icspDocName icspName count) byteLimit (kv :: rest) [] with
    | .error k => .error k
    | .ok (doc, rem) =>
      match icspRunAux size icspName byteLimit (count + 1) rem with
      | .error e => .error e
      | .ok docs =>
        .ok (if doc.isEmpty then docs
             else ⟨icspDocName icspName count, doc⟩ :: docs)
  termination_by pending => pending.length
  decreasing_by
    have key : ∀ (p acc : List (String × String)) (doc rem : List (String × String)),
        fillDoc size (icspDocName icspName count) byteLimit p acc = .ok (doc, rem) →
        rem.length ≤ p.length ∧ (acc = [] → p ≠ [] → rem.length < p.length) := by
      intro p
      induction p with
      | nil =>
        intro acc doc rem h
        simp only [fillDoc] at h
        cases h
        simp
      | cons kv rest ih =>
        intro acc doc rem h
        simp only [fillDoc] at h
        by_cases hsz : size (icspDocName icspName count) (acc ++ [kv]) > byteLimit
        · simp only [if_pos hsz] at h
          by_cases hlen : (acc ++ [kv]).length = 1
          · rw [if_pos hlen] at h
            simp at h
          · rw [if_neg hlen] at h
            cases h
            constructor
            · simp
            · intro hacc _
              subst hacc
              simp at hlen
        · simp only [if_neg hsz] at h
          have := ih (acc ++ [kv]) doc rem h
          constructor
          · exact Nat.le_succ_of_le this.1
          · intro hacc _
            subst hacc
            exact Nat.lt_succ_of_le this.1
    exact (key (kv :: rest) [] doc rem hf).2 rfl (by simp)

/-- Embeds `icspGenerator.Run`: compute the scoped registry mapping,
then split it into documents below the byte limit. -/
def icspGeneratorRun (size : String → List (String × String) → Nat)
    (icspName icspScope : String) (byteLimit : Nat)
    (mapping : List (DockerImageReference × DockerImageReference)) :
    Except String (List ICSPDoc) :=
  icspRunAux size icspName byteLimit 0 (getRegistryMapping icspScope mapping)

/-! ## Section 3: the v2 batch worker

Embeds `isFailSafe` / `isErrnoRetryable` / `isErrnoERESTART` and
`Batch.Worker` from the v2 batch package. Go errors reaching the
classifier are embedded as a tree mirroring the type switch. -/

/-- Registry error codes carried by `errcode.Error`. -/
inductive ErrCode where
  | unauthorized
  | denied
  | manifestUnknown
  | otherCode (name : String)
  deriving Repr, DecidableEq

/-- System error numbers reaching `isErrnoRetryable`. -/
inductive Errno where
  | econnrefused | eintr | eagain | ebusy | enetdown | enetunreach
  | enetreset | econnaborted | econnreset | etimedout | ehostdown
  | ehostunreach | erestart
  | otherErrno (name : String)
  deriving Repr, DecidableEq

/-- Go error values reaching the batch worker's classifier, one
constructor per case of the type switch in `isFailSafe` (plus
`io.EOF` and a catch-all for errors that match no case). A
`netError` is a `net.Error`: `timeout` reflects `Timeout()`, and
`inner` is its unwrapped error when it implements `Unwrap`. -/
inductive GoError where
  | contextCanceled
  | contextDeadlineExceeded
  | errcodeError (code : ErrCode)
  | netOpError (inner : GoError)
  | urlError (inner : GoError)
  | errno (e : Errno)
  | errcodeErrors (errs : List GoError)
  | multiError (errs : List GoError)
  | netError (timeout : Bool) (inner : Option GoError)
  | wrapped (inner : GoError)
  | eof
  | plain (msg : String)
  deriving Repr

/-- Embeds `isErrnoERESTART`. -/
def isErrnoERESTART (e : Errno) : Bool :=
  e = .erestart

/-- Embeds `isErrnoRetryable`: the listed transient errnos retry, and
anything else falls through to the ERESTART check. -/
def isErrnoRetryable (e : Errno) : Bool :=
  match e with
  | .econnrefused | .eintr | .eagain | .ebusy | .enetdown | .enetunreach
  | .enetreset | .econnaborted | .econnreset | .etimedout | .ehostdown
  | .ehostunreach => true
  | _ => isErrnoERESTART e

mutual

/-- Embeds `isFailSafe`: context cancellation is fatal; registry
errors are safe unless Unauthorized/Denied; net/url errors recurse
into the wrapped error (with `url.Error` around `io.EOF` safe);
errnos use the retryable table; error groups are safe only when every
member is; a `net.Error` is safe on timeout, otherwise unwrapped if
possible; other unwrappable errors recurse; anything else is
unsafe. -/
def isFailSafe : GoError → Bool
  | .contextCanceled => false
  | .contextDeadlineExceeded => false
  | .errcodeError c =>
    match c with
    | .unauthorized => false
    | .denied => false
    | _ => true
  | .netOpError inner => isFailSafe inner
  | .urlError .eof => true
  | .urlError inner => isFailSafe inner
  | .errno e => isErrnoRetryable e
  | .errcodeErrors errs => isFailSafeAll errs
  | .multiError errs => isFailSafeAll errs
  | .netError timeout inner =>
    if timeout then true
    else
      match inner with
      | some e => isFailSafe e
      | none => false
  | .wrapped inner => isFailSafe inner
  | .eof => false
  | .plain _ => false

/-- Helper for the two error-group cases of `isFailSafe`: the group is
fail-safe only when every member is. -/
def isFailSafeAll : List GoError → Bool
  | [] => true
  | e :: rest => isFailSafe e && isFailSafeAll rest

end

/-- Image types from `v2alpha1` used by the worker's dispatch. -/
inductive ImgType where
  | ocpRelease
  | ocpReleaseContent
  | cincinnatiGraph
  | operatorCatalog
  | operatorBundle
  | operatorRelatedImage
  | generic
  deriving Repr, DecidableEq

/-- One planned image in the collector schema. -/
structure CopyImage where
  origin : String
  source : String
  destination : String
  type : ImgType
  deriving Repr, DecidableEq

/-- The copy-option modes relevant to the worker's Cincinnati skip. -/
inductive MirrorMode where
  | mirrorToDisk
  | diskToMirror
  | mirrorToMirror
  | deleteMode
  deriving Repr, DecidableEq

/-- Final result of `Batch.Worker`: completion, a `SafeError`
(accumulated fail-safe errors, logged at the end) or an `UnsafeError`
carrying the aborting image and error. -/
inductive WorkerResult where
  | success
  | safeError
  | unsafeError (img : CopyImage) (err : GoError)
  deriving Repr

/-- State returned by the worker: the successfully copied images, the
error log entries written by `saveErrors` (the log file itself is
timestamped wall-clock, which we do not model), and the result. -/
structure WorkerOutcome where
  copied : List CopyImage
  errLog : List (CopyImage × GoError)
  result : WorkerResult
  deriving Repr

/-- Embeds the loop of `Batch.Worker`: Cincinnati graph images are
skipped in mirrorToDisk/mirrorToMirror modes; a successful copy is
recorded; a fail-safe error on a non-release image is recorded and
the loop continues; a fail-safe error on a release payload/content
image or a non-fail-safe error logs all errors so far and aborts
with `UnsafeError`; at the end, any recorded errors yield a
`SafeError` together with the error log. -/
def batchWorkerGo (mode : MirrorMode)
    (run : CopyImage → Option GoError) :
    List CopyImage → List CopyImage → List (CopyImage × GoError) → WorkerOutcome
  | [], copied, errArray =>
    if errArray.isEmpty then ⟨copied, errArray, .success⟩
    else ⟨copied, errArray, .safeError⟩
  | img :: rest, copied, errArray =>
    if img.type = .cincinnatiGraph ∧
        (mode = .mirrorToDisk ∨ mode = .mirrorToMirror) then
      batchWorkerGo mode run rest copied errArray
    else
      match run img with
      | none => batchWorkerGo mode run rest (copied ++ [img]) errArray
      | some err =>
        if isFailSafe err ∧ img.type ≠ .ocpRelease ∧
            img.type ≠ .ocpReleaseContent then
          batchWorkerGo mode run rest copied (errArray ++ [(img, err)])
        else
          ⟨copied, errArray ++ [(img, err)], .unsafeError img err⟩

/-- Embeds `Batch.Worker` on a whole collector schema. -/
def batchWorker (mode : MirrorMode) (run : CopyImage → Option GoError)
    (allImages : List CopyImage) : WorkerOutcome :=
  batchWorkerGo mode run allImages [] []

/-! ## Section 4: publish-side catalog rebuild

Embeds the per-catalog branch logic of `MirrorOptions.rebuildCatalogs`
(the publish-path variant that renders existing and new catalogs
together and deduplicates with `operator.TwoWayStrategy`). The
containerd resolver is abstracted as the resolution result for the
destination catalog reference. -/

/-- Result of `resolver.Resolve` on the destination catalog reference:
found with a digest, the typed not-found error (`errdefs.ErrNotFound`),
or any other resolution error. -/
inductive ResolveOutcome where
  | found (digest : String)
  | notFound
  | failed (msg : String)
  deriving Repr, DecidableEq

/-- How one catalog image gets rebuilt: the declarative-config
directory the image is built from, the base/source image, the
references handed to `action.Render` in order (empty when no render
happens), and whether the rendered config was deduplicated with the
two-way merge strategy. -/
structure CatalogBuild where
  dcDirToBuild : String
  srcImage : String
  renderRefs : List String
  twoWayMerged : Bool
  deriving Repr, DecidableEq

/-- Embeds the branch on `resolver.Resolve(ctx, refExact)` inside the
catalog loop of `rebuildCatalogs`: on success, render the existing
image reference before the new DC directory and merge duplicates with
`TwoWayStrategy`, building into `<dcDir>/rendered` from the existing
image; on `ErrNotFound`, build the new DC directory alone atop the OPM
base image; any other error aborts. -/
def rebuildOneCatalog (opmBaseImage refExact dcDir : String)
    (res : ResolveOutcome) : Except String CatalogBuild :=
  match res with
  | .found _ =>
    .ok ⟨dcDir ++ "/rendered", refExact, [refExact, dcDir], true⟩
  | .notFound =>
    .ok ⟨dcDir, opmBaseImage, [], false⟩
  | .failed msg =>
    .error ("error resolving existing catalog image " ++ refExact ++ ": " ++ msg)

/-- Embeds the catalog loop of `rebuildCatalogs`: each discovered
catalog is rebuilt in turn, and an error for any one catalog aborts
the whole rebuild (the Go code returns `nil, err` from inside the
loop). Catalogs are given as (refExact, dcDir, resolve result). -/
def rebuildCatalogsLoop (opmBaseImage : String) :
    List (String × String × ResolveOutcome) → Except String (List CatalogBuild)
  | [] => .ok []
  | (refExact, dcDir, res) :: rest =>
    match rebuildOneCatalog opmBaseImage refExact dcDir res with
    | .error e => .error e
    | .ok build =>
      match rebuildCatalogsLoop opmBaseImage rest with
      | .error e => .error e
      | .ok builds => .ok (build :: builds)

/-! ## Section 5: archive extraction

Embeds `MirrorUnArchiver.Unarchive` (v2 archive package). The two
path markers `workingDirectory` and `cacheFilePrefix` are package
constants whose definitions live outside the given sources, so they
are parameters here. -/

/-- Tar entry type flags relevant to the unarchiver. -/
inductive TarTypeflag where
  | reg
  | symlink
  | dir
  | otherType
  deriving Repr, DecidableEq

/-- One tar header as seen by `Unarchive`. -/
structure TarEntry where
  name : String
  typeflag : TarTypeflag
  deriving Repr, DecidableEq

/-- Embeds `strings.Contains` on Lean strings. -/
def goContains (s pat : String) : Bool :=
  decide (List.IsInfix pat.toList s.toList)

/-- Embeds `filepath.Dir` for the slash-separated paths the
unarchiver builds: everything before the final separator. -/
def filepathDir (p : String) : String :=
  let parts := splitOnChar (Char.ofNat 47) p.toList
  if parts.length ≤ 1 then "."
  else ⟨joinChar (Char.ofNat 47) parts.dropLast⟩

/-- Where `Unarchive` writes a tar entry, if anywhere. -/
inductive ExtractAction where
  | toPath (descriptor : String)
  | ignored
  deriving Repr, DecidableEq

/-- Embeds the per-entry dispatch of `Unarchive`: only regular files
are considered; a name containing the working-directory marker goes
under the parent of `workingDir`, otherwise a name containing the
cache marker goes under `cacheDir`, and every other name is skipped.
Non-regular entries (symlinks, directories, ...) are never
extracted. -/
def classifyTarEntry (workingDirMarker cacheMarker workingDir cacheDir : String)
    (e : TarEntry) : ExtractAction :=
  if e.typeflag = .reg then
    if goContains e.name workingDirMarker then
      .toPath (filepathDir workingDir ++ "/" ++ e.name)
    else if goContains e.name cacheMarker then
      .toPath (cacheDir ++ "/" ++ e.name)
    else .ignored
  else .ignored

/-- Embeds the sequential loop of `Unarchive` over all archive
entries, collecting which files are written where. -/
def unarchiveRun (workingDirMarker cacheMarker workingDir cacheDir : String)
    (entries : List TarEntry) : List (TarEntry × String) :=
  entries.foldr
    (fun e acc =>
      match classifyTarEntry workingDirMarker cacheMarker workingDir cacheDir e with
      | .toPath d => (e, d) :: acc
      | .ignored => acc)
    []

/-! ## Section 6: operator image pinning

Embeds `pinImages` (pkg/operator/mirror.go lines 318-355). The image
resolver (`image.ResolveToPin`) is abstracted as a function from an
image reference to the pinned reference or an error; `IsImagePinned`
and `IsImageTagged` become predicates on the reference model. -/

/-- A bundle or related image reference: a repository together with an
optional tag and an optional digest. `IsImagePinned` is digest
presence and `IsImageTagged` is tag presence. -/
structure ImgRef where
  repo : String
  tag : Option String
  digest : Option String
  deriving Repr, DecidableEq

/-- Embeds `image.IsImagePinned`. -/
def isImagePinned (r : ImgRef) : Bool := r.digest.isSome

/-- Embeds `image.IsImageTagged`. -/
def isImageTagged (r : ImgRef) : Bool := r.tag.isSome

/-- A related image of a bundle. -/
structure RelatedImage where
  riName : String
  image : ImgRef
  deriving Repr, DecidableEq

/-- A declarative-config bundle: its own image plus related images. -/
structure Bundle where
  bName : String
  image : ImgRef
  relatedImages : List RelatedImage
  deriving Repr, DecidableEq

/-- Embeds the inner loop of `pinImages` over `b.RelatedImages`:
already pinned images are untouched, untagged images are left with a
warning, and tagged images are resolved in place with errors
appended. Returns the rewritten list and the errors. -/
def pinRelatedImages (resolve : ImgRef → Except String ImgRef) :
    List RelatedImage → List RelatedImage × List String
  | [] => ([], [])
  | ri :: rest =>
    let (rest', errs) := pinRelatedImages resolve rest
    if ¬ isImagePinned ri.image then
      if ¬ isImageTagged ri.image then (ri :: rest', errs)
      else
        match resolve ri.image with
        | .error e => (ri :: rest', e :: errs)
        | .ok pinned => ({ ri with image := pinned } :: rest', errs)
    else (ri :: rest', errs)

/-- Embeds one iteration of the outer loop of `pinImages` over
`dc.Bundles`: an unpinned, untagged bundle image is left alone and
`continue` skips the whole bundle (related images included); an
unpinned, tagged bundle image is resolved, and on failure `continue`
likewise skips the related images; otherwise the related images are
pinned. -/
def pinBundle (resolve : ImgRef → Except String ImgRef) (b : Bundle) :
    Bundle × List String :=
  if ¬ isImagePinned b.image then
    if ¬ isImageTagged b.image then (b, [])
    else
      match resolve b.image with
      | .error e => (b, [e])
      | .ok pinned =>
        let (ris, rerrs) := pinRelatedImages resolve b.relatedImages
        ({ b with image := pinned, relatedImages := ris }, rerrs)
  else
    let (ris, rerrs) := pinRelatedImages resolve b.relatedImages
    ({ b with relatedImages := ris }, rerrs)

/-- Embeds `pinImages` on the bundle list of a declarative config:
each bundle is rewritten in place and the per-bundle errors are
aggregated (`utilerrors.NewAggregate`). -/
def pinImages (resolve : ImgRef → Except String ImgRef) :
    List Bundle → List Bundle × List String
  | [] => ([], [])
  | b :: rest =>
    let (pb, errs) := pinBundle resolve b
    let (rest', errs') := pinImages resolve rest
    (pb :: rest', errs ++ errs')

/-! ## Section 7: filter fingerprinting

Embeds `digestOfFilter` and the rebuild-skip decision of
`FilterCollector.OperatorImageCollector` (v2 filtered_collector.go).
The `v2alpha1.Operator` struct itself is declared outside the given
sources; the fields below are the ones the collector reads
(`Catalog`, `Full`, `IncludeConfig`, `TargetCatalog`, `TargetTag`,
`TargetCatalogSourceTemplate`), with the include-config filter kept
opaque as its canonical serialization. The MD5 hash is external
(crypto/md5) and is abstracted as a function from the serialized
bytes to its 32-character hex string. -/

/-- One operator catalog entry of the image-set configuration. -/
structure OperatorEntry where
  catalog : String
  full : Bool
  includeConfig : String
  targetCatalog : String
  targetTag : String
  targetCatalogSourceTemplate : String
  deriving Repr, DecidableEq

/-- Embeds the field-clearing prologue of `digestOfFilter`: the copy
`c` has `TargetCatalog`, `TargetTag` and `TargetCatalogSourceTemplate`
reset to their zero values before marshalling. -/
def clearTargetFields (c : OperatorEntry) : OperatorEntry :=
  { c with targetCatalog := "", targetTag := "", targetCatalogSourceTemplate := "" }

/-- Embeds `json.Marshal` on the operator entry: a deterministic
serialization of all its fields in declaration order. -/
def marshalOperatorEntry (c : OperatorEntry) : String :=
  "catalog:" ++ c.catalog ++ ";full:" ++ (if c.full then "true" else "false") ++
    ";includeConfig:" ++ c.includeConfig ++ ";targetCatalog:" ++ c.targetCatalog ++
    ";targetTag:" ++ c.targetTag ++ ";targetCatalogSourceTemplate:" ++
    c.targetCatalogSourceTemplate

/-- Helper: character-level truncation (the Go slice `[0:32]` on an
ASCII hex string). -/
def takeChars (s : String) (n : Nat) : String :=
  ⟨s.toList.take n⟩

/-- Embeds `digestOfFilter`: clear the three target fields, marshal,
hash, and keep the first 32 characters of the hex digest. -/
def digestOfFilter (md5hex : String → String) (c : OperatorEntry) : String :=
  takeChars (md5hex (marshalOperatorEntry (clearTargetFields c))) 32

/-- Embeds `FilterCollector.isAlreadyFiltered`: resolve the digest of
the cached filtered catalog and compare it with the digest recorded on
disk; any resolution failure means "not already filtered". -/
def isAlreadyFilteredCheck (resolveDigest : String → Option String)
    (srcFilteredCatalog recordedDigest : String) : Bool :=
  match resolveDigest srcFilteredCatalog with
  | some d => recordedDigest = d
  | none => false

/-- Embeds the rebuild-skip decision of `OperatorImageCollector`: read
the digest file stored under the filter fingerprint; when it exists
(and the fingerprint is non-empty), the rebuild is skipped exactly
when the cached filtered catalog still resolves to the recorded
digest. `readFile` abstracts `os.ReadFile` on the working tree and
`cachedCatalogRef` the cache-registry reference built by
`cachedCatalog`. -/
def rebuildSkipped (md5hex : String → String)
    (readFile : String → Option String)
    (resolveDigest : String → Option String)
    (filteredCatalogsDir cachedCatalogRef : String)
    (op : OperatorEntry) : Bool :=
  let filterDigest := digestOfFilter md5hex op
  match readFile (filteredCatalogsDir ++ "/" ++ filterDigest ++ "/digest") with
  | some recorded =>
    if filterDigest.length > 0 then
      isAlreadyFilteredCheck resolveDigest cachedCatalogRef recorded
    else false
  | none => false

/-! ## Section 8: additional-image planning

Embeds `AdditionalOptions.GetAdditional` (pkg/bundle/additional.go
lines 30-101). Reference parsing and the blocked-image predicate
`bundle.IsBlocked` are external to the given sources; `IsBlocked` is
abstracted as a predicate on the image name. -/

/-- Result of `GetAdditional`: either a configuration error produced
while building the mapping list (before `opts.Run()` mirrors
anything), or the mapping list that was handed to the mirror
operation. -/
inductive AdditionalResult where
  | configError (msg : String)
  | mirrored (mappings : List String)
  deriving Repr, DecidableEq

/-- Embeds the error message for an image that is both additional and
blocked. -/
def blockedErrMsg (img : String) : String :=
  "additional image " ++ img ++
    " also specified as blocked, remove the image one config field or the other"

/-- Embeds the mapping-building loop of `GetAdditional`: each declared
additional image is checked against the blocked list before being
appended; the first blocked image aborts with its error, before the
mirror operation runs. -/
def buildAdditionalMappings (isBlocked : String → Bool) :
    List String → Except String (List String)
  | [] => .ok []
  | img :: rest =>
    if isBlocked img then .error (blockedErrMsg img)
    else
      match buildAdditionalMappings isBlocked rest with
      | .error e => .error e
      | .ok ms => .ok (img :: ms)

/-- Embeds `GetAdditional`: build the mappings, then run the mirror
operation on them; a blocked image surfaces as a config error and the
mirror operation is never invoked. -/
def getAdditional (isBlocked : String → Bool) (additionalImages : List String) :
    AdditionalResult :=
  match buildAdditionalMappings isBlocked additionalImages with
  | .error e => .configError e
  | .ok ms => .mirrored ms

/-! ## Theorems

Shared helper lemmas come first, then one theorem per claim (with a
witness for each proved theorem that carries a hypothesis, and a
counterexample for each corrected claim). -/

/-- Helper: appending on the left of a `String` is cancellable. -/
theorem string_append_left_cancel {a b c : String} (h : a ++ b = a ++ c) : b = c := by
  apply String.ext
  have hd : (a ++ b).data = (a ++ c).data := by rw [h]
  simpa [String.data_append] using hd

/-- Helper: the metadata image URL determines the UUID it was derived
from, for a fixed mirror registry. -/
theorem newMetadataImage_inj (r : String) {u v : String}
    (h : newMetadataImage r u = newMetadataImage r v) : u = v :=
  string_append_left_cancel h

/-- C1 (amended): for every publish run with non-single-use metadata and
the sequence check not skipped: if stored metadata exists, Publish
succeeds past the metadata check exactly when the incoming sequence
equals the stored sequence plus one, and otherwise returns
SequenceError(stored+1, incoming) with no image mirrored and no
metadata written; if no stored metadata exists, the incoming sequence
must be exactly 1, else SequenceError(1, incoming) is returned with
nothing mirrored or written. -/
theorem publish_sequence_enforcement (incoming : Metadata)
    (readCurr : Except StorageErr Metadata)
    (hsu : incoming.singleUse = false) :
    (∀ curr, readCurr = .ok curr →
      publishRun false incoming readCurr =
        (if incoming.pastMirror.sequence = curr.pastMirror.sequence + 1 then
          ⟨.okExisting, true, true⟩
        else
          ⟨.sequenceError (curr.pastMirror.sequence + 1) incoming.pastMirror.sequence,
            false, false⟩)) ∧
    (readCurr = .error .metadataNotExist →
      publishRun false incoming readCurr =
        (if incoming.pastMirror.sequence = 1 then ⟨.okNewWorkspace, true, true⟩
        else ⟨.sequenceError 1 incoming.pastMirror.sequence, false, false⟩)) := by
  constructor
  · intro curr hc
    subst hc
    by_cases hseq : incoming.pastMirror.sequence = curr.pastMirror.sequence + 1
    · simp [publishRun, handleMetadata, hsu, hseq]
    · simp [publishRun, handleMetadata, hsu, hseq]
  · intro hc
    subst hc
    by_cases hseq : incoming.pastMirror.sequence = 1
    · simp [publishRun, handleMetadata, hsu, hseq]
    · simp [publishRun, handleMetadata, hsu, hseq]

/-- C1 witness: a non-single-use publish with stored sequence 1 and
incoming sequence 2 passes the metadata check, and with incoming
sequence 3 fails with SequenceError(2, 3) mirroring nothing. -/
theorem publish_sequence_enforcement_witness :
    publishRun false ⟨"u", false, ⟨2⟩⟩ (.ok ⟨"u", false, ⟨1⟩⟩) =
      ⟨.okExisting, true, true⟩ ∧
    publishRun false ⟨"u", false, ⟨3⟩⟩ (.ok ⟨"u", false, ⟨1⟩⟩) =
      ⟨.sequenceError 2 3, false, false⟩ := by
  constructor
  · have h := (publish_sequence_enforcement ⟨"u", false, ⟨2⟩⟩
      (.ok ⟨"u", false, ⟨1⟩⟩) rfl).1 ⟨"u", false, ⟨1⟩⟩ rfl
    simpa using h
  · have h := (publish_sequence_enforcement ⟨"u", false, ⟨3⟩⟩
      (.ok ⟨"u", false, ⟨1⟩⟩) rfl).1 ⟨"u", false, ⟨1⟩⟩ rfl
    simpa using h

/-- C1 counterexample: a publish run with `SkipMetadataCheck` set is a
publish run with non-single-use metadata whose stored sequence is 1 and
incoming sequence is 3, yet it succeeds past the metadata check and
mirrors images instead of returning SequenceError(2, 3); the claim as
stated, quantified over every publish run, is therefore false. -/
theorem publish_sequence_check_cex :
    (⟨"u", false, ⟨3⟩⟩ : Metadata).singleUse = false ∧
    (3 : Nat) ≠ 1 + 1 ∧
    publishRun true ⟨"u", false, ⟨3⟩⟩ (.ok ⟨"u", false, ⟨1⟩⟩) =
      ⟨.okExisting, true, true⟩ := by
  refine ⟨rfl, by decide, by decide⟩

/-- C4: a publish whose incoming metadata carries a UUID different from
the UUID the registry stores metadata under derives the metadata image
URL from the incoming UUID, hence finds no stored metadata, is handled
as a new workspace with expected sequence 1, and is never rejected with
a UUID error. -/
theorem publish_uuid_mismatch_new_workspace
    (registry storedUid : String) (storedMd incoming : Metadata) (skip : Bool)
    (hne : incoming.uid ≠ storedUid)
    (hsu : incoming.singleUse = false) :
    readCurrentFromRegistry [(newMetadataImage registry storedUid, storedMd)]
        registry incoming.uid = .error .metadataNotExist ∧
    handleMetadata skip incoming
        (readCurrentFromRegistry [(newMetadataImage registry storedUid, storedMd)]
          registry incoming.uid) =
      (if incoming.pastMirror.sequence = 1 then .okNewWorkspace
       else .sequenceError 1 incoming.pastMirror.sequence) ∧
    (∀ iu cu, handleMetadata skip incoming
        (readCurrentFromRegistry [(newMetadataImage registry storedUid, storedMd)]
          registry incoming.uid) ≠ .uuidError iu cu) := by
  have hurl : newMetadataImage registry incoming.uid ≠ newMetadataImage registry storedUid := by
    intro h
    exact hne (newMetadataImage_inj registry h)
  have hread : readCurrentFromRegistry [(newMetadataImage registry storedUid, storedMd)]
      registry incoming.uid = .error .metadataNotExist := by
    simp [readCurrentFromRegistry, List.lookup, beq_eq_false_iff_ne.mpr hurl,
      registryBackendReadMetadata, registryBackendExists]
  refine ⟨hread, ?_, ?_⟩
  · rw [hread]
    by_cases hseq : incoming.pastMirror.sequence = 1
    · simp [handleMetadata, hsu, hseq]
    · simp [handleMetadata, hsu, hseq]
  · intro iu cu
    rw [hread]
    by_cases hseq : incoming.pastMirror.sequence = 1
    · simp [handleMetadata, hsu, hseq]
    · simp [handleMetadata, hsu, hseq]

/-- C4 witness: a concrete run with stored metadata under UUID "a" and
incoming UUID "b" at sequence 1 is accepted as a new workspace. -/
theorem publish_uuid_mismatch_new_workspace_witness :
    readCurrentFromRegistry [(newMetadataImage "reg.example" "a", ⟨"a", false, ⟨5⟩⟩)]
        "reg.example" "b" = .error .metadataNotExist ∧
    handleMetadata false ⟨"b", false, ⟨1⟩⟩
        (readCurrentFromRegistry [(newMetadataImage "reg.example" "a", ⟨"a", false, ⟨5⟩⟩)]
          "reg.example" "b") = .okNewWorkspace := by
  have h := publish_uuid_mismatch_new_workspace "reg.example" "a"
    ⟨"a", false, ⟨5⟩⟩ ⟨"b", false, ⟨1⟩⟩ false (by decide) rfl
  exact ⟨h.1, by simpa using h.2.1⟩

/-- C10: every transport-kind registry error during the metadata
existence check (authentication failures and server errors included, not
only a missing image) is collapsed by the registry backend to
ErrMetadataNotExist, so the publish metadata handling treats the
workspace as new and demands incoming sequence 1 rather than surfacing
the underlying registry error. -/
theorem transport_error_means_new_workspace (kind : String)
    (stored : Option Metadata) (incoming : Metadata) (skip : Bool)
    (hsu : incoming.singleUse = false) :
    registryBackendExists (.transportError kind) = some .metadataNotExist ∧
    registryBackendReadMetadata (.transportError kind) stored =
      .error .metadataNotExist ∧
    handleMetadata skip incoming
        (registryBackendReadMetadata (.transportError kind) stored) =
      (if incoming.pastMirror.sequence = 1 then .okNewWorkspace
       else .sequenceError 1 incoming.pastMirror.sequence) ∧
    (∀ msg, handleMetadata skip incoming
        (registryBackendReadMetadata (.transportError kind) stored) ≠
      .readError msg) := by
  have hread : registryBackendReadMetadata (.transportError kind) stored =
      .error .metadataNotExist := by
    simp [registryBackendReadMetadata, registryBackendExists]
  refine ⟨rfl, hread, ?_, ?_⟩
  · rw [hread]
    by_cases hseq : incoming.pastMirror.sequence = 1
    · simp [handleMetadata, hsu, hseq]
    · simp [handleMetadata, hsu, hseq]
  · intro msg
    rw [hread]
    by_cases hseq : incoming.pastMirror.sequence = 1
    · simp [handleMetadata, hsu, hseq]
    · simp [handleMetadata, hsu, hseq]

/-- C10 witness: an unauthorized transport error on the existence check
with incoming sequence 1 yields a new workspace rather than an error. -/
theorem transport_error_means_new_workspace_witness :
    registryBackendReadMetadata (.transportError "401 Unauthorized") none =
      .error .metadataNotExist ∧
    handleMetadata false ⟨"u", false, ⟨1⟩⟩
        (registryBackendReadMetadata (.transportError "401 Unauthorized") none) =
      .okNewWorkspace := by
  have h := transport_error_means_new_workspace "401 Unauthorized" none
    ⟨"u", false, ⟨1⟩⟩ false rfl
  exact ⟨h.2.1, by simpa using h.2.2.1⟩

/-- C9: when some declared additional image is also blocked, the first
such image (in declaration order) makes GetAdditional return the config
error naming it, produced while building the mapping list, and the
mirror operation never runs. -/
theorem additional_blocked_image_error (isBlocked : String → Bool)
    (pre post : List String) (img : String)
    (hpre : ∀ p ∈ pre, isBlocked p = false)
    (hb : isBlocked img = true) :
    getAdditional isBlocked (pre ++ img :: post) =
      .configError (blockedErrMsg img) ∧
    ∀ ms, getAdditional isBlocked (pre ++ img :: post) ≠ .mirrored ms := by
  have key : buildAdditionalMappings isBlocked (pre ++ img :: post) =
      .error (blockedErrMsg img) := by
    induction pre with
    | nil => simp [buildAdditionalMappings, hb]
    | cons p ps ih =>
      have hp : isBlocked p = false := hpre p (by simp)
      have ih' := ih (fun q hq => hpre q (by simp [hq]))
      simp [buildAdditionalMappings, hp, ih']
  exact ⟨by simp [getAdditional, key], fun ms => by simp [getAdditional, key]⟩

/-- C9 witness: with quay.io/example/bad declared both additional and
blocked, planning fails with the config error naming it and nothing is
mirrored. -/
theorem additional_blocked_image_error_witness :
    getAdditional (fun s => s == "quay.io/example/bad")
        ["quay.io/example/foo", "quay.io/example/bad"] =
      .configError (blockedErrMsg "quay.io/example/bad") ∧
    ∀ ms, getAdditional (fun s => s == "quay.io/example/bad")
        ["quay.io/example/foo", "quay.io/example/bad"] ≠ .mirrored ms := by
  have h := additional_blocked_image_error (fun s => s == "quay.io/example/bad")
    ["quay.io/example/foo"] [] "quay.io/example/bad" (by decide) (by decide)
  exact h

/-- C5: for every catalog index discovered during publish, the rebuild
takes exactly one of three branches: a resolvable destination catalog is
rendered with the existing image reference ordered before the new
declarative-config directory and deduplicated with the two-way merge
strategy; a not-found resolution builds from the new declarative config
alone atop the OPM base image; and any other resolution error aborts the
whole rebuild with an error. -/
theorem rebuild_catalogs_branches (opmBaseImage : String) :
    (∀ refExact dcDir digest,
      rebuildOneCatalog opmBaseImage refExact dcDir (.found digest) =
        .ok ⟨dcDir ++ "/rendered", refExact, [refExact, dcDir], true⟩) ∧
    (∀ refExact dcDir,
      rebuildOneCatalog opmBaseImage refExact dcDir .notFound =
        .ok ⟨dcDir, opmBaseImage, [], false⟩) ∧
    (∀ pre refExact dcDir msg rest,
      (∀ c ∈ pre, ∀ m, c.2.2 ≠ ResolveOutcome.failed m) →
      rebuildCatalogsLoop opmBaseImage
          (pre ++ (refExact, dcDir, ResolveOutcome.failed msg) :: rest) =
        .error ("error resolving existing catalog image " ++ refExact ++ ": " ++ msg)) := by
  refine ⟨fun _ _ _ => rfl, fun _ _ => rfl, ?_⟩
  intro pre refExact dcDir msg rest hpre
  induction pre with
  | nil => simp [rebuildCatalogsLoop, rebuildOneCatalog]
  | cons c cs ih =>
    have hc : ∀ m, c.2.2 ≠ ResolveOutcome.failed m := hpre c (by simp)
    have ih' := ih (fun q hq => hpre q (by simp [hq]))
    obtain ⟨r1, r2, res⟩ := c
    cases res with
    | found d =>
      simp only [List.cons_append, rebuildCatalogsLoop, rebuildOneCatalog,
        List.append_eq, ih']
    | notFound =>
      simp only [List.cons_append, rebuildCatalogsLoop, rebuildOneCatalog,
        List.append_eq, ih']
    | failed m => exact absurd rfl (hc m)

/-- C5 witness: a rebuild over three catalogs whose destination resolves,
is missing, and errors respectively keeps the first two branch shapes and
aborts on the third. -/
theorem rebuild_catalogs_branches_witness :
    rebuildOneCatalog "opm-base" "reg/ctlg:v1" "dc1" (.found "sha256:aa") =
      .ok ⟨"dc1" ++ "/rendered", "reg/ctlg:v1", ["reg/ctlg:v1", "dc1"], true⟩ ∧
    rebuildOneCatalog "opm-base" "reg/ctlg:v2" "dc2" .notFound =
      .ok ⟨"dc2", "opm-base", [], false⟩ ∧
    rebuildCatalogsLoop "opm-base"
        [("reg/ctlg:v1", "dc1", .found "sha256:aa"),
         ("reg/ctlg:v3", "dc3", .failed "boom"),
         ("reg/ctlg:v2", "dc2", .notFound)] =
      .error ("error resolving existing catalog image " ++ "reg/ctlg:v3" ++ ": " ++ "boom") := by
  have h := rebuild_catalogs_branches "opm-base"
  refine ⟨h.1 "reg/ctlg:v1" "dc1" "sha256:aa", h.2.1 "reg/ctlg:v2" "dc2", ?_⟩
  exact h.2.2 [("reg/ctlg:v1", "dc1", .found "sha256:aa")] "reg/ctlg:v3" "dc3" "boom"
    [("reg/ctlg:v2", "dc2", .notFound)]
    (by intro c hc m; rw [List.mem_singleton] at hc; subst hc; simp)

/-- C6 (amended): for every tar entry read by Unarchive: a regular entry
whose path contains the working-directory marker is extracted under the
parent of workingDir; otherwise a regular entry whose path contains the
cache marker is extracted under cacheDir; every other regular entry is
ignored without error; non-regular entries (symlinks and other types)
are never extracted, and every extraction performed by the run comes
from a regular entry. -/
theorem unarchive_entry_dispatch (wm cm workingDir cacheDir : String) :
    (∀ e : TarEntry, e.typeflag = .reg → goContains e.name wm = true →
      classifyTarEntry wm cm workingDir cacheDir e =
        .toPath (filepathDir workingDir ++ "/" ++ e.name)) ∧
    (∀ e : TarEntry, e.typeflag = .reg → goContains e.name wm = false →
      goContains e.name cm = true →
      classifyTarEntry wm cm workingDir cacheDir e =
        .toPath (cacheDir ++ "/" ++ e.name)) ∧
    (∀ e : TarEntry, e.typeflag = .reg → goContains e.name wm = false →
      goContains e.name cm = false →
      classifyTarEntry wm cm workingDir cacheDir e = .ignored) ∧
    (∀ e : TarEntry, e.typeflag ≠ .reg →
      classifyTarEntry wm cm workingDir cacheDir e = .ignored) ∧
    (∀ (entries : List TarEntry) (e : TarEntry) (d : String),
      (e, d) ∈ unarchiveRun wm cm workingDir cacheDir entries →
      e.typeflag = .reg ∧
        classifyTarEntry wm cm workingDir cacheDir e = .toPath d) := by
  refine ⟨?_, ?_, ?_, ?_, ?_⟩
  · intro e hreg hwm
    simp [classifyTarEntry, hreg, hwm]
  · intro e hreg hwm hcm
    simp [classifyTarEntry, hreg, hwm, hcm]
  · intro e hreg hwm hcm
    simp [classifyTarEntry, hreg, hwm, hcm]
  · intro e hreg
    simp [classifyTarEntry, hreg]
  · intro entries
    induction entries with
    | nil => intro e d h; simp [unarchiveRun] at h
    | cons x xs ih =>
      intro e d h
      simp only [unarchiveRun, List.foldr_cons] at h
      cases hx : classifyTarEntry wm cm workingDir cacheDir x with
      | toPath p =>
        rw [hx] at h
        rcases List.mem_cons.mp h with h1 | h2
        · have he1 : e = x := congrArg Prod.fst h1
          have he2 : d = p := congrArg Prod.snd h1
          subst he1; subst he2
          refine ⟨?_, hx⟩
          by_contra hne
          rw [show classifyTarEntry wm cm workingDir cacheDir e = .ignored from by
            simp [classifyTarEntry, hne]] at hx
          cases hx
        · exact ih e d h2
      | ignored =>
        rw [hx] at h
        exact ih e d h

/-- C6 counterexample: the unarchiver classifies entries by substring
containment, not by path prefix: the regular entry
"extra/working-dir/f" does not lie under the working-directory prefix,
yet it is extracted into the working directory instead of being
ignored, refuting the claim's "every other entry is ignored". -/
theorem unarchive_entry_dispatch_cex :
    List.isPrefixOf "working-dir".toList "extra/working-dir/f".toList = false ∧
    classifyTarEntry "working-dir" "docker/registry/v2" "/dest/working-dir" "/cache"
        ⟨"extra/working-dir/f", .reg⟩ =
      .toPath (filepathDir "/dest/working-dir" ++ "/" ++ "extra/working-dir/f") ∧
    classifyTarEntry "working-dir" "docker/registry/v2" "/dest/working-dir" "/cache"
        ⟨"extra/working-dir/f", .reg⟩ ≠ .ignored := by
  refine ⟨by decide, by decide, by decide⟩

/-- C6 witness: a regular working-dir entry, a regular cache entry, an
unrelated regular entry and a symlink entry are dispatched to the
working directory, the cache directory, ignored, and ignored
respectively. -/
theorem unarchive_entry_dispatch_witness :
    classifyTarEntry "working-dir" "docker/registry/v2" "/dest/working-dir" "/cache"
        ⟨"working-dir/x/f", .reg⟩ =
      .toPath (filepathDir "/dest/working-dir" ++ "/" ++ "working-dir/x/f") ∧
    classifyTarEntry "working-dir" "docker/registry/v2" "/dest/working-dir" "/cache"
        ⟨"docker/registry/v2/blobs/b", .reg⟩ =
      .toPath ("/cache" ++ "/" ++ "docker/registry/v2/blobs/b") ∧
    classifyTarEntry "working-dir" "docker/registry/v2" "/dest/working-dir" "/cache"
        ⟨"imageset-config.yaml", .reg⟩ = .ignored ∧
    classifyTarEntry "working-dir" "docker/registry/v2" "/dest/working-dir" "/cache"
        ⟨"working-dir/link", .symlink⟩ = .ignored := by
  have h := unarchive_entry_dispatch "working-dir" "docker/registry/v2"
    "/dest/working-dir" "/cache"
  refine ⟨h.1 ⟨"working-dir/x/f", .reg⟩ rfl (by decide),
    h.2.1 ⟨"docker/registry/v2/blobs/b", .reg⟩ rfl (by decide) (by decide),
    h.2.2.1 ⟨"imageset-config.yaml", .reg⟩ rfl (by decide) (by decide),
    h.2.2.2.1 ⟨"working-dir/link", .symlink⟩ (by decide)⟩

/-- C7 (amended): pinImages leaves digest-pinned bundle and related
images unchanged, resolves tagged unpinned images in place, and leaves
images with neither tag nor digest unchanged with only a warning;
resolution errors are aggregated and a failure in one bundle does not
affect other bundles, but a bundle whose own image is untagged or fails
to resolve has its related images skipped entirely. -/
theorem pin_images_behaviour (resolve : ImgRef → Except String ImgRef) :
    (∀ b rest, pinImages resolve (b :: rest) =
      ((pinBundle resolve b).1 :: (pinImages resolve rest).1,
        (pinBundle resolve b).2 ++ (pinImages resolve rest).2)) ∧
    (∀ b, isImagePinned b.image = true →
      pinBundle resolve b =
        ({ b with relatedImages := (pinRelatedImages resolve b.relatedImages).1 },
          (pinRelatedImages resolve b.relatedImages).2)) ∧
    (∀ b pinned, isImagePinned b.image = false → isImageTagged b.image = true →
      resolve b.image = .ok pinned →
      pinBundle resolve b =
        ({ b with
            image := pinned,
            relatedImages := (pinRelatedImages resolve b.relatedImages).1 },
          (pinRelatedImages resolve b.relatedImages).2)) ∧
    (∀ b e, isImagePinned b.image = false → isImageTagged b.image = true →
      resolve b.image = .error e →
      pinBundle resolve b = (b, [e])) ∧
    (∀ b, isImagePinned b.image = false → isImageTagged b.image = false →
      pinBundle resolve b = (b, [])) ∧
    (∀ ri rest, pinRelatedImages resolve (ri :: rest) =
      ((pinRelatedImages resolve [ri]).1 ++ (pinRelatedImages resolve rest).1,
        (pinRelatedImages resolve [ri]).2 ++ (pinRelatedImages resolve rest).2)) ∧
    (∀ ri, isImagePinned ri.image = true →
      pinRelatedImages resolve [ri] = ([ri], [])) ∧
    (∀ ri pinned, isImagePinned ri.image = false → isImageTagged ri.image = true →
      resolve ri.image = .ok pinned →
      pinRelatedImages resolve [ri] = ([{ ri with image := pinned }], [])) ∧
    (∀ ri e, isImagePinned ri.image = false → isImageTagged ri.image = true →
      resolve ri.image = .error e →
      pinRelatedImages resolve [ri] = ([ri], [e])) ∧
    (∀ ri, isImagePinned ri.image = false → isImageTagged ri.image = false →
      pinRelatedImages resolve [ri] = ([ri], [])) := by
  refine ⟨fun b rest => rfl, ?_, ?_, ?_, ?_, ?_, ?_, ?_, ?_, ?_⟩
  · intro b hpin
    simp [pinBundle, hpin]
  · intro b pinned hpin htag hres
    simp [pinBundle, hpin, htag, hres]
  · intro b e hpin htag hres
    simp [pinBundle, hpin, htag, hres]
  · intro b hpin htag
    simp [pinBundle, hpin, htag]
  · intro ri rest
    rcases hpin : isImagePinned ri.image with hfalse | htrue
    · rcases htag : isImageTagged ri.image with f2 | t2
      · simp [pinRelatedImages, hpin, htag]
      · rcases hres : resolve ri.image with e | pinned
        · simp [pinRelatedImages, hpin, htag, hres]
        · simp [pinRelatedImages, hpin, htag, hres]
    · simp [pinRelatedImages, hpin]
  · intro ri hpin
    simp [pinRelatedImages, hpin]
  · intro ri pinned hpin htag hres
    simp [pinRelatedImages, hpin, htag, hres]
  · intro ri e hpin htag hres
    simp [pinRelatedImages, hpin, htag, hres]
  · intro ri hpin htag
    simp [pinRelatedImages, hpin, htag]

/-- C7 counterexample: with a resolver that fails on the bundle's own
tagged image but succeeds on its tagged related image, pinImages leaves
the related image unpinned (the failure skips the rest of the bundle),
refuting the claim that every tagged non-pinned image is replaced and
that a single resolution failure does not prevent pinning of the
remaining images. -/
theorem pin_images_cex :
    pinImages
        (fun r => if r.repo = "good" then
            Except.ok (⟨"good", none, some "sha256:d"⟩ : ImgRef)
          else Except.error "resolve failed")
        [⟨"b", ⟨"bad", some "v1", none⟩, [⟨"r", ⟨"good", some "v1", none⟩⟩]⟩] =
      ([⟨"b", ⟨"bad", some "v1", none⟩, [⟨"r", ⟨"good", some "v1", none⟩⟩]⟩],
        ["resolve failed"]) ∧
    isImagePinned ⟨"good", some "v1", none⟩ = false ∧
    isImageTagged ⟨"good", some "v1", none⟩ = true ∧
    (fun (r : ImgRef) => if r.repo = "good" then
        Except.ok (⟨"good", none, some "sha256:d"⟩ : ImgRef)
      else Except.error "resolve failed") ⟨"good", some "v1", none⟩ =
      Except.ok ⟨"good", none, some "sha256:d"⟩ := by
  refine ⟨by decide, by decide, by decide, rfl⟩

/-- C7 witness: a concrete resolver pins a tagged related image of a
pinned bundle in place while an unrelated failing bundle only records
its own error. -/
theorem pin_images_behaviour_witness :
    pinRelatedImages
        (fun r => if r.repo = "good" then
            Except.ok (⟨"good", none, some "sha256:d"⟩ : ImgRef)
          else Except.error "resolve failed")
        [⟨"r", ⟨"good", some "v1", none⟩⟩] =
      ([⟨"r", ⟨"good", none, some "sha256:d"⟩⟩], []) ∧
    pinBundle
        (fun r => if r.repo = "good" then
            Except.ok (⟨"good", none, some "sha256:d"⟩ : ImgRef)
          else Except.error "resolve failed")
        ⟨"b", ⟨"bad", some "v1", none⟩, []⟩ =
      (⟨"b", ⟨"bad", some "v1", none⟩, []⟩, ["resolve failed"]) := by
  have h := pin_images_behaviour
    (fun r => if r.repo = "good" then
        Except.ok (⟨"good", none, some "sha256:d"⟩ : ImgRef)
      else Except.error "resolve failed")
  constructor
  · have hri := h.2.2.2.2.2.2.2.1 ⟨"r", ⟨"good", some "v1", none⟩⟩
      ⟨"good", none, some "sha256:d"⟩ (by decide) (by decide) rfl
    simpa using hri
  · exact h.2.2.2.1 ⟨"b", ⟨"bad", some "v1", none⟩, []⟩ "resolve failed"
      (by decide) (by decide) rfl

/-- C8: digestOfFilter hashes the serialized catalog entry with
TargetCatalog, TargetTag and TargetCatalogSourceTemplate cleared and
keeps 32 hex characters; hence any two entries that differ only in
those target fields share the fingerprint, and the rebuild is skipped
only when a digest recorded under that fingerprint exists on disk and
the cached filtered catalog still resolves to exactly that digest. -/
theorem digest_of_filter_fingerprint (md5hex : String → String)
    (hhex : ∀ s, (md5hex s).length = 32)
    (c1 c2 : OperatorEntry)
    (hcat : c1.catalog = c2.catalog) (hfull : c1.full = c2.full)
    (hinc : c1.includeConfig = c2.includeConfig) :
    digestOfFilter md5hex c1 = digestOfFilter md5hex c2 ∧
    (digestOfFilter md5hex c1).length = 32 ∧
    (∀ (readFile resolveDigest : String → Option String)
        (dir src : String) (op : OperatorEntry),
      rebuildSkipped md5hex readFile resolveDigest dir src op = true →
      ∃ recorded,
        readFile (dir ++ "/" ++ digestOfFilter md5hex op ++ "/digest") =
          some recorded ∧
        resolveDigest src = some recorded) := by
  have hclear : clearTargetFields c1 = clearTargetFields c2 := by
    cases c1; cases c2
    simp_all [clearTargetFields]
  refine ⟨?_, ?_, ?_⟩
  · simp [digestOfFilter, hclear]
  · have h32 : (md5hex (marshalOperatorEntry (clearTargetFields c1))).data.length = 32 :=
      hhex (marshalOperatorEntry (clearTargetFields c1))
    show ((md5hex (marshalOperatorEntry (clearTargetFields c1))).data.take 32).length = 32
    rw [List.length_take, h32]
    omega
  · intro readFile resolveDigest dir src op hskip
    simp only [rebuildSkipped] at hskip
    rcases hread : readFile (dir ++ "/" ++ digestOfFilter md5hex op ++ "/digest") with
      _ | recorded
    · rw [hread] at hskip
      simp at hskip
    · rw [hread] at hskip
      refine ⟨recorded, rfl, ?_⟩
      have hskip2 : (if (digestOfFilter md5hex op).length > 0 then
          isAlreadyFilteredCheck resolveDigest src recorded else false) = true := hskip
      by_cases hpos : (digestOfFilter md5hex op).length > 0
      · rw [if_pos hpos] at hskip2
        simp only [isAlreadyFilteredCheck] at hskip2
        rcases hres : resolveDigest src with _ | d
        · rw [hres] at hskip2
          simp at hskip2
        · rw [hres] at hskip2
          have hrec : recorded = d := by simpa using hskip2
          rw [hrec]
      · rw [if_neg hpos] at hskip2
        simp at hskip2

/-- C8 witness: two catalog entries differing only in their target
fields share a fingerprint of length 32 under a concrete 32-character
hash, and a concrete skipped rebuild exhibits its recorded digest
still resolving. -/
theorem digest_of_filter_fingerprint_witness :
    digestOfFilter (fun _ => "0123456789abcdef0123456789abcdef")
        ⟨"reg.example/cat:v1", false, "pkgs:p1", "tc-a", "tt-a", "tpl-a"⟩ =
      digestOfFilter (fun _ => "0123456789abcdef0123456789abcdef")
        ⟨"reg.example/cat:v1", false, "pkgs:p1", "tc-b", "tt-b", "tpl-b"⟩ ∧
    (digestOfFilter (fun _ => "0123456789abcdef0123456789abcdef")
        ⟨"reg.example/cat:v1", false, "pkgs:p1", "tc-a", "tt-a", "tpl-a"⟩).length = 32 ∧
    (∃ recorded,
      (fun _ : String => some "sha256:rec")
          ("fdir" ++ "/" ++
            digestOfFilter (fun _ => "0123456789abcdef0123456789abcdef")
              ⟨"reg.example/cat:v1", false, "pkgs:p1", "tc-a", "tt-a", "tpl-a"⟩ ++
            "/digest") =
        some recorded ∧
      (fun _ : String => some "sha256:rec") "cache/src" = some recorded) := by
  have h := digest_of_filter_fingerprint
    (fun _ => "0123456789abcdef0123456789abcdef") (fun _ => rfl)
    ⟨"reg.example/cat:v1", false, "pkgs:p1", "tc-a", "tt-a", "tpl-a"⟩
    ⟨"reg.example/cat:v1", false, "pkgs:p1", "tc-b", "tt-b", "tpl-b"⟩
    rfl rfl rfl
  refine ⟨h.1, h.2.1, ?_⟩
  refine h.2.2 (fun _ => some "sha256:rec") (fun _ => some "sha256:rec")
    "fdir" "cache/src"
    ⟨"reg.example/cat:v1", false, "pkgs:p1", "tc-a", "tt-a", "tpl-a"⟩ ?_
  simp only [rebuildSkipped, isAlreadyFilteredCheck, digestOfFilter, takeChars]
  decide

/-- C3: the batch worker continues past images whose mirror call fails
with a fail-safe error on non-release images, recording each failure
and returning a SafeError with the accumulated error log at the end
(success when no error occurred); it aborts immediately with an
UnsafeError on a non-fail-safe error, and on any error at all for a
release-payload or release-content image, leaving later images
unprocessed and writing the error log including the aborting image;
the classifier treats connection-refused and other retryable errnos,
network timeouts, and registry error codes other than
Unauthorized/Denied as fail-safe, and Unauthorized/Denied as
fail-fast. -/
theorem batch_worker_error_policy (mode : MirrorMode)
    (run : CopyImage → Option GoError) :
    (∀ (imgs copied : List CopyImage) (errArray : List (CopyImage × GoError)),
      (∀ img ∈ imgs,
        run img = none ∨
        (img.type = .cincinnatiGraph ∧ (mode = .mirrorToDisk ∨ mode = .mirrorToMirror)) ∨
        (∃ e, run img = some e ∧ isFailSafe e = true ∧
          img.type ≠ .ocpRelease ∧ img.type ≠ .ocpReleaseContent)) →
      batchWorkerGo mode run imgs copied errArray =
        ⟨copied ++ imgs.filterMap (fun i =>
            if i.type = .cincinnatiGraph ∧
                (mode = .mirrorToDisk ∨ mode = .mirrorToMirror) then none
            else match run i with | none => some i | some _ => none),
          errArray ++ imgs.filterMap (fun i =>
            if i.type = .cincinnatiGraph ∧
                (mode = .mirrorToDisk ∨ mode = .mirrorToMirror) then none
            else (run i).map (fun e => (i, e))),
          if (errArray ++ imgs.filterMap (fun i =>
            if i.type = .cincinnatiGraph ∧
                (mode = .mirrorToDisk ∨ mode = .mirrorToMirror) then none
            else (run i).map (fun e => (i, e)))).isEmpty then .success
          else .safeError⟩) ∧
    (∀ (pre post : List CopyImage) (bad : CopyImage) (err : GoError)
        (copied : List CopyImage) (errArray : List (CopyImage × GoError)),
      (∀ img ∈ pre,
        run img = none ∨
        (img.type = .cincinnatiGraph ∧ (mode = .mirrorToDisk ∨ mode = .mirrorToMirror)) ∨
        (∃ e, run img = some e ∧ isFailSafe e = true ∧
          img.type ≠ .ocpRelease ∧ img.type ≠ .ocpReleaseContent)) →
      ¬ (bad.type = .cincinnatiGraph ∧ (mode = .mirrorToDisk ∨ mode = .mirrorToMirror)) →
      run bad = some err →
      (isFailSafe err = false ∨ bad.type = .ocpRelease ∨ bad.type = .ocpReleaseContent) →
      batchWorkerGo mode run (pre ++ bad :: post) copied errArray =
        ⟨copied ++ pre.filterMap (fun i =>
            if i.type = .cincinnatiGraph ∧
                (mode = .mirrorToDisk ∨ mode = .mirrorToMirror) then none
            else match run i with | none => some i | some _ => none),
          (errArray ++ pre.filterMap (fun i =>
            if i.type = .cincinnatiGraph ∧
                (mode = .mirrorToDisk ∨ mode = .mirrorToMirror) then none
            else (run i).map (fun e => (i, e)))) ++ [(bad, err)],
          .unsafeError bad err⟩) ∧
    isFailSafe (.errno .econnrefused) = true ∧
    isFailSafe (.errno .etimedout) = true ∧
    isFailSafe (.netError true none) = true ∧
    (∀ n, isFailSafe (.errcodeError (.otherCode n)) = true) ∧
    isFailSafe (.errcodeError .unauthorized) = false ∧
    isFailSafe (.errcodeError .denied) = false := by
  have mainA : ∀ (imgs copied : List CopyImage) (errArray : List (CopyImage × GoError)),
      (∀ img ∈ imgs,
        run img = none ∨
        (img.type = .cincinnatiGraph ∧ (mode = .mirrorToDisk ∨ mode = .mirrorToMirror)) ∨
        (∃ e, run img = some e ∧ isFailSafe e = true ∧
          img.type ≠ .ocpRelease ∧ img.type ≠ .ocpReleaseContent)) →
      batchWorkerGo mode run imgs copied errArray =
        ⟨copied ++ imgs.filterMap (fun i =>
            if i.type = .cincinnatiGraph ∧
                (mode = .mirrorToDisk ∨ mode = .mirrorToMirror) then none
            else match run i with | none => some i | some _ => none),
          errArray ++ imgs.filterMap (fun i =>
            if i.type = .cincinnatiGraph ∧
                (mode = .mirrorToDisk ∨ mode = .mirrorToMirror) then none
            else (run i).map (fun e => (i, e))),
          if (errArray ++ imgs.filterMap (fun i =>
            if i.type = .cincinnatiGraph ∧
                (mode = .mirrorToDisk ∨ mode = .mirrorToMirror) then none
            else (run i).map (fun e => (i, e)))).isEmpty then .success
          else .safeError⟩ := by
    intro imgs
    induction imgs with
    | nil =>
      intro copied errArray _
      simp only [batchWorkerGo, List.filterMap_nil, List.append_nil]
      by_cases h : errArray.isEmpty <;> simp [h]
    | cons img rest ih =>
      intro copied errArray hall
      have himg := hall img (by simp)
      have hrest := fun i hi => hall i (List.mem_cons_of_mem img hi)
      by_cases hskip : img.type = .cincinnatiGraph ∧
          (mode = .mirrorToDisk ∨ mode = .mirrorToMirror)
      · simp only [batchWorkerGo, if_pos hskip]
        rw [ih copied errArray hrest]
        simp only [List.filterMap_cons]
        try dsimp only
        simp only [if_pos hskip]
      · simp only [batchWorkerGo, if_neg hskip]
        rcases hrun : run img with _ | e
        · dsimp only
          rw [ih (copied ++ [img]) errArray hrest]
          simp only [List.filterMap_cons]
          try dsimp only
          simp only [if_neg hskip, hrun]
          simp only [Option.map_none']
          try dsimp only
          simp only [List.append_assoc, List.singleton_append]
        · have hsafe : isFailSafe e = true ∧
              img.type ≠ ImgType.ocpRelease ∧ img.type ≠ ImgType.ocpReleaseContent := by
            rcases himg with h1 | h2 | ⟨e2, he2, hs, ht1, ht2⟩
            · rw [hrun] at h1; cases h1
            · exact absurd h2 hskip
            · rw [hrun] at he2
              cases he2
              exact ⟨hs, ht1, ht2⟩
          try dsimp only
          rw [if_pos hsafe]
          rw [ih copied (errArray ++ [(img, e)]) hrest]
          simp only [List.filterMap_cons]
          try dsimp only
          simp only [if_neg hskip, hrun]
          simp only [Option.map_some']
          try dsimp only
          simp only [List.append_assoc, List.singleton_append]
  refine ⟨mainA, ?_, rfl, rfl, rfl, fun n => rfl, rfl, rfl⟩
  intro pre post bad err copied errArray hpre hskipbad hrunbad hfatal
  induction pre generalizing copied errArray with
  | nil =>
    simp only [List.nil_append, batchWorkerGo, if_neg hskipbad]
    rw [hrunbad]
    try dsimp only
    have hcond : ¬ (isFailSafe err = true ∧ bad.type ≠ ImgType.ocpRelease ∧
        bad.type ≠ ImgType.ocpReleaseContent) := by
      rcases hfatal with h | h | h
      · intro hc; rw [h] at hc; cases hc.1
      · intro hc; exact hc.2.1 h
      · intro hc; exact hc.2.2 h
    rw [if_neg hcond]
    simp
  | cons img rest ih =>
    have himg := hpre img (by simp)
    have hrest := fun i hi => hpre i (List.mem_cons_of_mem img hi)
    by_cases hskip : img.type = .cincinnatiGraph ∧
        (mode = .mirrorToDisk ∨ mode = .mirrorToMirror)
    · simp only [List.cons_append, batchWorkerGo, List.append_eq, if_pos hskip]
      rw [ih copied errArray hrest]
      simp only [List.filterMap_cons]
      try dsimp only
      simp only [if_pos hskip]
    · simp only [List.cons_append, batchWorkerGo, List.append_eq, if_neg hskip]
      rcases hrun : run img with _ | e
      · dsimp only
        rw [ih (copied ++ [img]) errArray hrest]
        simp only [List.filterMap_cons]
        try dsimp only
        simp only [if_neg hskip, hrun]
        simp only [Option.map_none']
        try dsimp only
        simp only [List.append_assoc, List.singleton_append]
      · have hsafe : isFailSafe e = true ∧
            img.type ≠ ImgType.ocpRelease ∧ img.type ≠ ImgType.ocpReleaseContent := by
          rcases himg with h1 | h2 | ⟨e2, he2, hs, ht1, ht2⟩
          · rw [hrun] at h1; cases h1
          · exact absurd h2 hskip
          · rw [hrun] at he2
            cases he2
            exact ⟨hs, ht1, ht2⟩
        try dsimp only
        rw [if_pos hsafe]
        rw [ih copied (errArray ++ [(img, e)]) hrest]
        simp only [List.filterMap_cons]
        try dsimp only
        simp only [if_neg hskip, hrun]
        simp only [Option.map_some']
        try dsimp only
        simp only [List.append_assoc, List.singleton_append]

/-- C3 witness: on a concrete plan, a connection-refused generic image
is recorded and the run ends in SafeError having still copied the later
bundle image, while an Unauthorized failure aborts immediately with an
UnsafeError, leaving the image after it unprocessed. -/
theorem batch_worker_error_policy_witness :
    batchWorker .diskToMirror
        (fun img => if img.origin = "a" then some (.errno .econnrefused)
          else if img.origin = "u" then some (.errcodeError .unauthorized)
          else none)
        [⟨"a", "sa", "da", .generic⟩, ⟨"b", "sb", "db", .operatorBundle⟩] =
      ⟨[⟨"b", "sb", "db", .operatorBundle⟩],
        [(⟨"a", "sa", "da", .generic⟩, .errno .econnrefused)], .safeError⟩ ∧
    batchWorker .diskToMirror
        (fun img => if img.origin = "a" then some (.errno .econnrefused)
          else if img.origin = "u" then some (.errcodeError .unauthorized)
          else none)
        [⟨"b", "sb", "db", .operatorBundle⟩, ⟨"u", "su", "du", .generic⟩,
          ⟨"a", "sa", "da", .generic⟩] =
      ⟨[⟨"b", "sb", "db", .operatorBundle⟩],
        [(⟨"u", "su", "du", .generic⟩, .errcodeError .unauthorized)],
        .unsafeError ⟨"u", "su", "du", .generic⟩ (.errcodeError .unauthorized)⟩ := by
  have h := batch_worker_error_policy .diskToMirror
    (fun img => if img.origin = "a" then some (.errno .econnrefused)
      else if img.origin = "u" then some (.errcodeError .unauthorized)
      else none)
  constructor
  · have h1 := h.1 [⟨"a", "sa", "da", .generic⟩, ⟨"b", "sb", "db", .operatorBundle⟩]
      [] [] ?_
    · exact h1.trans (by rfl)
    · intro img hm
      simp only [List.mem_cons, List.not_mem_nil, or_false] at hm
      rcases hm with rfl | rfl
      · exact Or.inr (Or.inr ⟨.errno .econnrefused, rfl, rfl, by decide, by decide⟩)
      · exact Or.inl rfl
  · have h2 := h.2.1 [⟨"b", "sb", "db", .operatorBundle⟩]
      [⟨"a", "sa", "da", .generic⟩] ⟨"u", "su", "du", .generic⟩
      (.errcodeError .unauthorized) [] [] ?_ ?_ ?_ ?_
    · exact h2.trans (by rfl)
    · intro img hm
      simp only [List.mem_cons, List.not_mem_nil, or_false] at hm
      rcases hm with rfl
      · exact Or.inl rfl
    · intro hc
      exact absurd hc.1 (by decide)
    · rfl
    · exact Or.inl rfl

/-- Helper: a successful `fillDoc` call consumes a prefix of its pending
list into the document, and the resulting document either is the
starting accumulator or passed the byte-limit check. -/
theorem fillDoc_spec (size : String → List (String × String) → Nat)
    (name : String) (byteLimit : Nat) :
    ∀ (pending acc doc rem : List (String × String)),
      fillDoc size name byteLimit pending acc = .ok (doc, rem) →
      (∃ consumed, doc = acc ++ consumed ∧ consumed ++ rem = pending) ∧
      (doc = acc ∨ size name doc ≤ byteLimit) := by
  intro pending
  induction pending with
  | nil =>
    intro acc doc rem h
    simp only [fillDoc] at h
    cases h
    exact ⟨⟨[], by simp, rfl⟩, Or.inl rfl⟩
  | cons kv rest ih =>
    intro acc doc rem h
    simp only [fillDoc] at h
    by_cases hsz : size name (acc ++ [kv]) > byteLimit
    · simp only [if_pos hsz] at h
      by_cases hlen : (acc ++ [kv]).length = 1
      · rw [if_pos hlen] at h
        simp at h
      · rw [if_neg hlen] at h
        cases h
        exact ⟨⟨[], by simp, rfl⟩, Or.inl rfl⟩
    · simp only [if_neg hsz] at h
      obtain ⟨⟨consumed, hdoc, hcr⟩, hsize⟩ := ih (acc ++ [kv]) doc rem h
      refine ⟨⟨kv :: consumed, by simp [hdoc], by simp [hcr]⟩, ?_⟩
      rcases hsize with h1 | h2
      · right
        rw [h1]
        omega
      · exact Or.inr h2

/-- Helper: `fillDoc` errors only on a singleton overflow at the head
of its pending list with an empty accumulator. -/
theorem fillDoc_error_spec (size : String → List (String × String) → Nat)
    (name : String) (byteLimit : Nat) :
    ∀ (pending acc : List (String × String)) (k : String),
      fillDoc size name byteLimit pending acc = .error k →
      acc = [] ∧ ∃ v rest, pending = (k, v) :: rest ∧
        size name [(k, v)] > byteLimit := by
  intro pending
  induction pending with
  | nil =>
    intro acc k h
    simp [fillDoc] at h
  | cons kv rest ih =>
    intro acc k h
    simp only [fillDoc] at h
    by_cases hsz : size name (acc ++ [kv]) > byteLimit
    · simp only [if_pos hsz] at h
      by_cases hlen : (acc ++ [kv]).length = 1
      · rw [if_pos hlen] at h
        have hacc : acc = [] := by
          cases acc with
          | nil => rfl
          | cons a as => simp at hlen
        cases h
        subst hacc
        refine ⟨rfl, kv.2, rest, by simp, by simpa using hsz⟩
      · rw [if_neg hlen] at h
        cases h
    · simp only [if_neg hsz] at h
      obtain ⟨hacc, _⟩ := ih (acc ++ [kv]) k h
      simp at hacc

/-- Helper: a non-erroring `fillDoc` round on a non-empty pending list
strictly shrinks it (same fact as the termination argument of
`icspRunAux`, needed again for its specification). -/
theorem fillDoc_shrinks (size : String → List (String × String) → Nat)
    (name : String) (byteLimit : Nat) (kv : String × String)
    (rest doc rem : List (String × String))
    (h : fillDoc size name byteLimit (kv :: rest) [] = .ok (doc, rem)) :
    rem.length < (kv :: rest).length := by
  obtain ⟨⟨consumed, hdoc, hcr⟩, _⟩ :=
    fillDoc_spec size name byteLimit (kv :: rest) [] doc rem h
  by_cases hc : consumed = []
  · subst hc
    simp at hcr
    subst hcr
    exfalso
    simp only [fillDoc] at h
    by_cases hsz : size name ([] ++ [kv]) > byteLimit
    · simp only [if_pos hsz] at h
      rw [if_pos (by simp)] at h
      cases h
    · simp only [if_neg hsz] at h
      obtain ⟨⟨consumed2, hdoc2, hcr2⟩, _⟩ :=
        fillDoc_spec size name byteLimit rest ([] ++ [kv]) doc (kv :: rest) h
      have := congrArg List.length hcr2
      simp at this
      omega
  · have hlc := congrArg List.length hcr
    simp only [List.length_append, List.length_cons] at hlc
    have hlen : 0 < consumed.length := List.length_pos.mpr hc
    simp only [List.length_cons]
    omega

/-- Helper: the specification of the outer loop `icspRunAux`: on
success every document is below the byte limit and the documents
partition the pending mirrors in order; on error some pending mirror
alone overflows the limit under some document name. -/
theorem icspRunAux_spec (size : String → List (String × String) → Nat)
    (icspName : String) (byteLimit : Nat) :
    ∀ (n : Nat) (pending : List (String × String)) (count : Nat),
      pending.length ≤ n →
      (∀ docs, icspRunAux size icspName byteLimit count pending = .ok docs →
        (∀ d ∈ docs, size d.name d.mirrors ≤ byteLimit) ∧
        (docs.map ICSPDoc.mirrors).flatten = pending) ∧
      (∀ k, icspRunAux size icspName byteLimit count pending = .error k →
        ∃ v name, (k, v) ∈ pending ∧ size name [(k, v)] > byteLimit) := by
  intro n
  induction n with
  | zero =>
    intro pending count hlen
    have hp : pending = [] := List.length_eq_zero.mp (Nat.le_zero.mp hlen)
    subst hp
    constructor
    · intro docs h
      simp only [icspRunAux] at h
      cases h
      simp
    · intro k h
      simp [icspRunAux] at h
  | succ m ih =>
    intro pending count hlen
    cases pending with
    | nil =>
      constructor
      · intro docs h
        simp only [icspRunAux] at h
        cases h
        simp
      · intro k h
        simp [icspRunAux] at h
    | cons kv rest =>
      constructor
      · intro docs h
        rw [icspRunAux] at h
        rcases hf : fillDoc size (icspDocName icspName count) byteLimit (kv :: rest) []
          with k | ⟨doc, rem⟩
        · rw [hf] at h
          dsimp only at h
          cases h
        · rw [hf] at h
          dsimp only at h
          have hshrink := fillDoc_shrinks size (icspDocName icspName count) byteLimit
            kv rest doc rem hf
          have hrem : rem.length ≤ m := by
            simp only [List.length_cons] at hlen hshrink
            omega
          obtain ⟨⟨consumed, hdoc, hcr⟩, hsize⟩ :=
            fillDoc_spec size (icspDocName icspName count) byteLimit
              (kv :: rest) [] doc rem hf
          simp only [List.nil_append] at hdoc
          subst hdoc
          rcases hrec : icspRunAux size icspName byteLimit (count + 1) rem
            with e | docs2
          · rw [hrec] at h
            dsimp only at h
            cases h
          · rw [hrec] at h
            dsimp only at h
            obtain ⟨hok, _⟩ := ih rem (count + 1) hrem
            obtain ⟨hbelow, hflat⟩ := hok docs2 hrec
            cases h
            by_cases hde : doc.isEmpty
            · have hce : doc = [] := by
                cases doc with
                | nil => rfl
                | cons a as => simp at hde
              subst hce
              simp only [List.nil_append] at hcr
              rw [if_pos hde]
              refine ⟨hbelow, ?_⟩
              rw [hflat]
              exact hcr
            · rw [if_neg hde]
              refine ⟨?_, ?_⟩
              · intro d hd
                rcases List.mem_cons.mp hd with h1 | h2
                · subst h1
                  rcases hsize with hs1 | hs2
                  · subst hs1
                    simp at hde
                  · exact hs2
                · exact hbelow d h2
              · simp only [List.map_cons, List.flatten_cons, hflat]
                exact hcr
      · intro k h
        rw [icspRunAux] at h
        rcases hf : fillDoc size (icspDocName icspName count) byteLimit (kv :: rest) []
          with k2 | ⟨doc, rem⟩
        · rw [hf] at h
          dsimp only at h
          cases h
          obtain ⟨_, v, rest2, hpend, hsz⟩ :=
            fillDoc_error_spec size (icspDocName icspName count) byteLimit
              (kv :: rest) [] k hf
          refine ⟨v, icspDocName icspName count, ?_, hsz⟩
          rw [hpend]
          simp
        · rw [hf] at h
          dsimp only at h
          have hshrink := fillDoc_shrinks size (icspDocName icspName count) byteLimit
            kv rest doc rem hf
          have hrem : rem.length ≤ m := by
            simp only [List.length_cons] at hlen hshrink
            omega
          obtain ⟨⟨consumed, hdoc, hcr⟩, _⟩ :=
            fillDoc_spec size (icspDocName icspName count) byteLimit
              (kv :: rest) [] doc rem hf
          rcases hrec : icspRunAux size icspName byteLimit (count + 1) rem
            with e | docs2
          · rw [hrec] at h
            dsimp only at h
            cases h
            obtain ⟨_, herr⟩ := ih rem (count + 1) hrem
            obtain ⟨v, name, hmem, hsz⟩ := herr k hrec
            refine ⟨v, name, ?_, hsz⟩
            rw [← hcr]
            exact List.mem_append_right consumed hmem
          · rw [hrec] at h
            dsimp only at h
            cases h

/-- Helper: membership after a Go-map insertion: either an untouched
original entry or the inserted pair. -/
theorem mapInsert_mem (m : List (String × String)) (k v : String)
    (kv : String × String) (h : kv ∈ mapInsert m k v) :
    kv ∈ m ∨ kv = (k, v) := by
  simp only [mapInsert] at h
  by_cases hany : m.any (fun p => p.1 = k)
  · rw [if_pos hany] at h
    obtain ⟨p, hp, hpe⟩ := List.mem_map.mp h
    by_cases hpk : p.1 = k
    · rw [if_pos hpk] at hpe
      exact Or.inr hpe.symm
    · rw [if_neg hpk] at hpe
      exact Or.inl (hpe ▸ hp)
  · rw [if_neg hany] at h
    rcases List.mem_append.mp h with h1 | h2
    · exact Or.inl h1
    · exact Or.inr (List.mem_singleton.mp h2)

/-- Helper: a key present before a Go-map insertion is still present
after it. -/
theorem mapInsert_key_preserved (m : List (String × String)) (k v k0 : String)
    (h : ∃ w, (k0, w) ∈ m) : ∃ w, (k0, w) ∈ mapInsert m k v := by
  obtain ⟨w, hw⟩ := h
  simp only [mapInsert]
  by_cases hany : m.any (fun p => p.1 = k)
  · rw [if_pos hany]
    by_cases hk : k0 = k
    · subst hk
      exact ⟨v, List.mem_map.mpr ⟨(k0, w), hw, by simp⟩⟩
    · refine ⟨w, List.mem_map.mpr ⟨(k0, w), hw, ?_⟩⟩
      rw [if_neg (by simpa using hk)]
  · rw [if_neg hany]
    exact ⟨w, List.mem_append_left _ hw⟩

/-- Helper: the inserted key is present after a Go-map insertion. -/
theorem mapInsert_key_inserted (m : List (String × String)) (k v : String) :
    ∃ w, (k, w) ∈ mapInsert m k v := by
  simp only [mapInsert]
  by_cases hany : m.any (fun p => p.1 = k)
  · rw [if_pos hany]
    obtain ⟨p, hp, hpk⟩ := List.any_eq_true.mp hany
    refine ⟨v, List.mem_map.mpr ⟨p, hp, ?_⟩⟩
    rw [if_pos (by simpa using hpk)]
  · rw [if_neg hany]
    exact ⟨v, List.mem_append_right _ (List.mem_singleton.mpr rfl)⟩

/-- Helper: a Go-map insertion keeps the key list duplicate-free. -/
theorem mapInsert_nodup (m : List (String × String)) (k v : String)
    (h : (m.map Prod.fst).Nodup) : ((mapInsert m k v).map Prod.fst).Nodup := by
  simp only [mapInsert]
  by_cases hany : m.any (fun p => p.1 = k)
  · rw [if_pos hany]
    have hmap : (m.map (fun p => if p.1 = k then (k, v) else p)).map Prod.fst =
        m.map Prod.fst := by
      rw [List.map_map]
      refine List.map_congr_left ?_
      intro p _
      by_cases hpk : p.1 = k
      · simp [hpk]
      · simp [hpk]
    rw [hmap]
    exact h
  · rw [if_neg hany]
    rw [List.map_append]
    rw [List.nodup_append]
    refine ⟨h, by simp, ?_⟩
    intro a ha hb
    simp only [List.map_cons, List.map_nil, List.mem_singleton] at hb
    subst hb
    obtain ⟨p, hp, hpk⟩ := List.mem_map.mp ha
    rw [List.any_eq_true] at hany
    exact hany ⟨p, hp, by simp [hpk]⟩

/-- Helper: every entry of the scoped registry mapping comes from a
digest-addressed input mapping entry whose switch case produced
exactly that (key, mirror) pair (generalized over the fold
accumulator). -/
theorem getRegistryMapping_mem_aux (icspScope : String) :
    ∀ (m : List (DockerImageReference × DockerImageReference))
      (acc : List (String × String)) (kv : String × String),
      kv ∈ m.foldl (fun acc p =>
        if p.2.id = "" then acc
        else
          match scopeEntry icspScope p.1 p.2 with
          | some e => mapInsert acc e.1 e.2
          | none => acc) acc →
      kv ∈ acc ∨ ∃ p ∈ m, p.2.id ≠ "" ∧
        scopeEntry icspScope p.1 p.2 = some kv := by
  intro m
  induction m with
  | nil =>
    intro acc kv h
    exact Or.inl h
  | cons q rest ih =>
    intro acc kv h
    simp only [List.foldl_cons] at h
    by_cases hid : q.2.id = ""
    · rw [if_pos hid] at h
      rcases ih acc kv h with h1 | ⟨p, hp, hpid, hpe⟩
      · exact Or.inl h1
      · exact Or.inr ⟨p, List.mem_cons_of_mem q hp, hpid, hpe⟩
    · rw [if_neg hid] at h
      rcases hse : scopeEntry icspScope q.1 q.2 with _ | ⟨ek, ev⟩
      · simp only [hse] at h
        rcases ih acc kv h with h1 | ⟨p, hp, hpid, hpe⟩
        · exact Or.inl h1
        · exact Or.inr ⟨p, List.mem_cons_of_mem q hp, hpid, hpe⟩
      · simp only [hse] at h
        rcases ih _ kv h with h1 | ⟨p, hp, hpid, hpe⟩
        · rcases mapInsert_mem _ _ _ kv h1 with h2 | h3
          · exact Or.inl h2
          · refine Or.inr ⟨q, List.mem_cons_self q rest, hid, ?_⟩
            rw [hse, h3]
        · exact Or.inr ⟨p, List.mem_cons_of_mem q hp, hpid, hpe⟩

/-- Helper: every digest-addressed input entry whose switch case
produces a (key, mirror) pair contributes that key to the scoped
registry mapping (generalized over the fold accumulator). -/
theorem getRegistryMapping_key_aux (icspScope : String) :
    ∀ (m : List (DockerImageReference × DockerImageReference))
      (acc : List (String × String)),
      (∀ p ∈ m, p.2.id ≠ "" → ∀ key val,
        scopeEntry icspScope p.1 p.2 = some (key, val) →
        ∃ w, (key, w) ∈ m.foldl (fun acc p =>
          if p.2.id = "" then acc
          else
            match scopeEntry icspScope p.1 p.2 with
            | some e => mapInsert acc e.1 e.2
            | none => acc) acc) ∧
      (∀ k0, (∃ w, (k0, w) ∈ acc) →
        ∃ w, (k0, w) ∈ m.foldl (fun acc p =>
          if p.2.id = "" then acc
          else
            match scopeEntry icspScope p.1 p.2 with
            | some e => mapInsert acc e.1 e.2
            | none => acc) acc) := by
  intro m
  induction m with
  | nil =>
    intro acc
    exact ⟨fun p hp => absurd hp (List.not_mem_nil p), fun k0 h => h⟩
  | cons q rest ih =>
    intro acc
    constructor
    · intro p hp hpid key val hkv
      simp only [List.foldl_cons]
      rcases List.mem_cons.mp hp with h1 | h2
      · subst h1
        rw [if_neg hpid]
        simp only [hkv]
        exact (ih _).2 key (mapInsert_key_inserted acc key val)
      · by_cases hid : q.2.id = ""
        · rw [if_pos hid]
          exact (ih acc).1 p h2 hpid key val hkv
        · rw [if_neg hid]
          rcases hse : scopeEntry icspScope q.1 q.2 with _ | e
          · simp only [hse]
            exact (ih acc).1 p h2 hpid key val hkv
          · simp only [hse]
            exact (ih _).1 p h2 hpid key val hkv
    · intro k0 h
      simp only [List.foldl_cons]
      by_cases hid : q.2.id = ""
      · rw [if_pos hid]
        exact (ih acc).2 k0 h
      · rw [if_neg hid]
        rcases hse : scopeEntry icspScope q.1 q.2 with _ | e
        · simp only [hse]
          exact (ih acc).2 k0 h
        · simp only [hse]
          exact (ih _).2 k0 (mapInsert_key_preserved acc _ _ k0 h)

/-- Helper: the scoped registry mapping has duplicate-free keys
(generalized over the fold accumulator). -/
theorem getRegistryMapping_nodup_aux (icspScope : String) :
    ∀ (m : List (DockerImageReference × DockerImageReference))
      (acc : List (String × String)),
      (acc.map Prod.fst).Nodup →
      ((m.foldl (fun acc p =>
        if p.2.id = "" then acc
        else
          match scopeEntry icspScope p.1 p.2 with
          | some e => mapInsert acc e.1 e.2
          | none => acc) acc).map Prod.fst).Nodup := by
  intro m
  induction m with
  | nil =>
    intro acc h
    exact h
  | cons q rest ih =>
    intro acc h
    simp only [List.foldl_cons]
    by_cases hid : q.2.id = ""
    · rw [if_pos hid]
      exact ih acc h
    · rw [if_neg hid]
      rcases hse : scopeEntry icspScope q.1 q.2 with _ | e
      · simp only [hse]
        exact ih acc h
      · simp only [hse]
        exact ih _ (mapInsert_nodup acc _ _ h)

/-- C2: every ICSP document emitted by the generator serializes within
the byte limit; on success the documents' mirrors, in order, are
exactly the scoped registry mapping, which is the input mapping
restricted to digest-addressed destinations, each recorded as the
(key, mirror) pair its switch case selects, and deduplicated by scope
key (duplicate-free keys, every digest-addressed entry's key present);
an error names a mirror key whose singleton document overflows the
limit, and a mirror that can fit in no document forces an error. The
serialized size is abstract but monotone under sublists, as a byte
length of YAML output is. -/
theorem icsp_generator_run_properties
    (size : String → List (String × String) → Nat)
    (icspName icspScope : String) (byteLimit : Nat)
    (mapping : List (DockerImageReference × DockerImageReference))
    (hmono : ∀ (name : String) (l1 l2 : List (String × String)),
      l1.Sublist l2 → size name l1 ≤ size name l2) :
    (∀ docs, icspGeneratorRun size icspName icspScope byteLimit mapping = .ok docs →
      (∀ d ∈ docs, size d.name d.mirrors ≤ byteLimit) ∧
      (docs.map ICSPDoc.mirrors).flatten = getRegistryMapping icspScope mapping) ∧
    (∀ kv ∈ getRegistryMapping icspScope mapping,
      ∃ p ∈ mapping, p.2.id ≠ "" ∧
        scopeEntry icspScope p.1 p.2 = some kv) ∧
    (∀ p ∈ mapping, p.2.id ≠ "" → ∀ key val,
      scopeEntry icspScope p.1 p.2 = some (key, val) →
      ∃ v, (key, v) ∈ getRegistryMapping icspScope mapping) ∧
    ((getRegistryMapping icspScope mapping).map Prod.fst).Nodup ∧
    (∀ k, icspGeneratorRun size icspName icspScope byteLimit mapping = .error k →
      ∃ v name, (k, v) ∈ getRegistryMapping icspScope mapping ∧
        size name [(k, v)] > byteLimit) ∧
    ((∃ kv ∈ getRegistryMapping icspScope mapping,
        ∀ name, size name [kv] > byteLimit) →
      ∃ k, icspGeneratorRun size icspName icspScope byteLimit mapping = .error k) := by
  have hspec := icspRunAux_spec size icspName byteLimit
    (getRegistryMapping icspScope mapping).length
    (getRegistryMapping icspScope mapping) 0 (Nat.le_refl _)
  refine ⟨hspec.1, ?_, ?_, ?_, hspec.2, ?_⟩
  · intro kv h
    rcases getRegistryMapping_mem_aux icspScope mapping [] kv h with h1 | h2
    · simp at h1
    · exact h2
  · intro p hp hpid key val hkv
    exact (getRegistryMapping_key_aux icspScope mapping []).1 p hp hpid key val hkv
  · exact getRegistryMapping_nodup_aux icspScope mapping [] (by simp)
  · intro ⟨kv, hkv, hbig⟩
    rcases hres : icspGeneratorRun size icspName icspScope byteLimit mapping
      with k | docs
    · exact ⟨k, rfl⟩
    · exfalso
      obtain ⟨hbelow, hflat⟩ := hspec.1 docs hres
      have hkv2 : kv ∈ (docs.map ICSPDoc.mirrors).flatten := by
        rw [hflat]
        exact hkv
      obtain ⟨l, hl, hkvl⟩ := List.mem_flatten.mp hkv2
      obtain ⟨d, hd, hde⟩ := List.mem_map.mp hl
      have hsub : [kv].Sublist d.mirrors := by
        rw [← hde] at hkvl
        exact List.singleton_sublist.mpr hkvl
      have := hmono d.name [kv] d.mirrors hsub
      have := hbelow d hd
      have := hbig d.name
      omega

/-- C2 witness: with a size function charging 100 bytes per mirror, a
two-entry mapping (one digest-addressed, one tagged-only) under the
repository scope yields a single document holding the digest-addressed
mirror, below the limit of 250 bytes; tripling the per-mirror cost to
300 makes the same single mirror unfittable and the run errors with
its key. -/
theorem icsp_generator_run_properties_witness :
    icspGeneratorRun (fun _ l => 100 * l.length) "gen/icsp" "repository" 250
        [(⟨"quay.io", "ns", "app", "v1", ""⟩,
          ⟨"mirror.local", "ns", "app", "", "sha256:abc"⟩),
         (⟨"quay.io", "ns", "tagonly", "v2", ""⟩,
          ⟨"mirror.local", "ns", "tagonly", "v2", ""⟩)] =
      .ok [⟨icspDocName "gen/icsp" 0,
        [("quay.io/ns/app", "mirror.local/ns/app")]⟩] ∧
    (∀ d ∈ [(⟨icspDocName "gen/icsp" 0,
        [("quay.io/ns/app", "mirror.local/ns/app")]⟩ : ICSPDoc)],
      (fun (_ : String) (l : List (String × String)) => 100 * l.length)
        d.name d.mirrors ≤ 250) ∧
    icspGeneratorRun (fun _ l => 300 * l.length) "gen/icsp" "repository" 250
        [(⟨"quay.io", "ns", "app", "v1", ""⟩,
          ⟨"mirror.local", "ns", "app", "", "sha256:abc"⟩)] =
      .error "quay.io/ns/app" := by
  have hrun : icspGeneratorRun (fun _ l => 100 * l.length) "gen/icsp" "repository" 250
      [(⟨"quay.io", "ns", "app", "v1", ""⟩,
        ⟨"mirror.local", "ns", "app", "", "sha256:abc"⟩),
       (⟨"quay.io", "ns", "tagonly", "v2", ""⟩,
        ⟨"mirror.local", "ns", "tagonly", "v2", ""⟩)] =
      .ok [⟨icspDocName "gen/icsp" 0,
        [("quay.io/ns/app", "mirror.local/ns/app")]⟩] := by
    rw [icspGeneratorRun]
    have hreg : getRegistryMapping "repository"
        [(⟨"quay.io", "ns", "app", "v1", ""⟩,
          ⟨"mirror.local", "ns", "app", "", "sha256:abc"⟩),
         (⟨"quay.io", "ns", "tagonly", "v2", ""⟩,
          ⟨"mirror.local", "ns", "tagonly", "v2", ""⟩)] =
        [("quay.io/ns/app", "mirror.local/ns/app")] := by
      simp [getRegistryMapping, mapInsert, scopeEntry, asRepositoryString]
    rw [hreg]
    rw [icspRunAux]
    simp [fillDoc, icspRunAux]
  have hbounds := (icsp_generator_run_properties (fun _ l => 100 * l.length)
    "gen/icsp" "repository" 250
    [(⟨"quay.io", "ns", "app", "v1", ""⟩,
      ⟨"mirror.local", "ns", "app", "", "sha256:abc"⟩),
     (⟨"quay.io", "ns", "tagonly", "v2", ""⟩,
      ⟨"mirror.local", "ns", "tagonly", "v2", ""⟩)]
    (fun name l1 l2 hsub => by
      simpa using Nat.mul_le_mul_left 100 hsub.length_le)).1 _ hrun
  refine ⟨hrun, hbounds.1, ?_⟩
  rw [icspGeneratorRun]
  have hreg2 : getRegistryMapping "repository"
      [(⟨"quay.io", "ns", "app", "v1", ""⟩,
        ⟨"mirror.local", "ns", "app", "", "sha256:abc"⟩)] =
      [("quay.io/ns/app", "mirror.local/ns/app")] := by
    simp [getRegistryMapping, mapInsert, scopeEntry, asRepositoryString]
  rw [hreg2]
  rw [icspRunAux]
  simp [fillDoc]

end OcBundle
